import Mathlib

/-!
Verification of the prescription validation engine of `src/main.py`
(`validate_and_fix_prescription` and its helpers).

Modelling conventions (shallow embedding):
* Python values that can appear in a candidate record (`None`, `int`,
  `float`, `str`) are the inductive `PyVal`.  Python floats are modelled
  as exact rationals (`ℚ`); the non-finite floats `inf`/`nan` are outside
  the model.  A missing dictionary key is identified with `None`,
  matching the source's use of `dict.get`.
* `float(x)` on a string is modelled by `parseQchars`, covering Python's
  plain decimal literals (optional surrounding whitespace, optional sign,
  digits with at most one dot); exponent, underscore, `inf` and `nan`
  forms are outside the model.  The discrete part of the parse
  (`parseDec`) is separated from the conversion to `ℚ` (`ratOfDec`) so
  that concrete runs are kernel-computable.
* Python `x % 1` on a float is `pymod1` (result in `[0, 1)`), `round` is
  `pyRound` (round half to even, as Python's `round`), `int(x)` on a
  float is `pyTrunc` (truncation toward zero), `abs` is `pyAbs`.
* Validation notes are structured (`Note`): each constructor corresponds
  to one `validation_notes.append(f"...")` site in the source and carries
  the values interpolated there.
-/

namespace Prescription

/-- A Python value as it can appear in a candidate prescription record:
`None`, an `int`, a `float` (modelled as an exact rational), or a `str`. -/
inductive PyVal where
  | vNone : PyVal
  | vInt : ℤ → PyVal
  | vFloat : ℚ → PyVal
  | vStr : String → PyVal
  deriving DecidableEq, Repr

/-- One structured validation note; each constructor is one
`validation_notes.append` site of `validate_and_fix_prescription`,
carrying the values that the source interpolates into the f-string. -/
inductive Note where
  | outOfRange (field : String) (num : ℚ)
  | rounded (field : String) (num roundedTo : ℚ)
  | notMultiple (field : String) (num : ℚ)
  | invalidFormat (field : String) (val : PyVal)
  | axisCylZero (eye : String)
  | axisOutOfRange (eye : String) (axis : ℤ)
  | axisInvalidFormat (eye : String) (val : PyVal)
  | addNegative (eye : String) (num : ℚ)
  | addOutsideTypical (eye : String) (num : ℚ)
  | pdOutsideRange (num : ℚ)
  | pdInvalidFormat (val : PyVal)
  | dateUnparsed (val : PyVal)
  deriving DecidableEq, Repr

/-- Python's `abs` on a number. -/
def pyAbs (q : ℚ) : ℚ := if q < 0 then -q else q

/-- Python's `x % 1` on a number: the fractional part, always in `[0,1)`. -/
def pymod1 (q : ℚ) : ℚ := q - (⌊q⌋ : ℚ)

/-- Python's `round(x)` on a number: round half to even. -/
def pyRound (q : ℚ) : ℤ :=
  if q - (⌊q⌋ : ℚ) < 1/2 then ⌊q⌋
  else if q - (⌊q⌋ : ℚ) > 1/2 then ⌊q⌋ + 1
  else if ⌊q⌋ % 2 = 0 then ⌊q⌋ else ⌊q⌋ + 1

/-- Python's `int(x)` on a float: truncation toward zero. -/
def pyTrunc (q : ℚ) : ℤ := if 0 ≤ q then ⌊q⌋ else -⌊-q⌋

/-- Python's `str.strip()`: drop whitespace from both ends. -/
def stripChars (l : List Char) : List Char :=
  ((l.dropWhile Char.isWhitespace).reverse.dropWhile Char.isWhitespace).reverse

/-- Decimal digits to a natural number (chars assumed to be digits). -/
def digitsToNat (l : List Char) : ℕ :=
  l.foldl (fun a c => 10 * a + (c.toNat - 48)) 0

/-- Discrete part of Python's `float(str)` on a plain decimal literal:
after stripping whitespace, an optional sign followed by digits with at
most one dot and at least one digit overall.  Returns the sign, the
value of the integer-part digits, the value of the fraction digits, and
the number of fraction digits. -/
def parseDec (l : List Char) : Option (Bool × ℕ × ℕ × ℕ) :=
  let core : List Char → Option (ℕ × ℕ × ℕ) := fun m =>
    let d1 := m.takeWhile Char.isDigit
    match m.dropWhile Char.isDigit with
    | [] => if d1.isEmpty then none else some (digitsToNat d1, 0, 0)
    | '.' :: d2 =>
        if d2.all Char.isDigit && !(d1.isEmpty && d2.isEmpty) then
          some (digitsToNat d1, digitsToNat d2, d2.length)
        else none
    | _ => none
  match stripChars l with
  | '+' :: rest => (core rest).map (fun r => (false, r))
  | '-' :: rest => (core rest).map (fun r => (true, r))
  | l' => (core l').map (fun r => (false, r))

/-- Conversion of a parsed decimal literal to its rational value. -/
def ratOfDec (d : Bool × ℕ × ℕ × ℕ) : ℚ :=
  if d.1 then -((d.2.1 : ℚ) + (d.2.2.1 : ℚ) / 10 ^ d.2.2.2)
  else (d.2.1 : ℚ) + (d.2.2.1 : ℚ) / 10 ^ d.2.2.2

/-- Python's `float(str)` on plain decimal literals. -/
def parseQchars (l : List Char) : Option ℚ :=
  (parseDec l).map ratOfDec

/-- Python's `float(x)` on a candidate value: `None` fails (`TypeError`),
numbers pass through, strings are parsed as decimal literals. -/
def pyFloat : PyVal → Option ℚ
  | PyVal.vNone => none
  | PyVal.vInt n => some (n : ℚ)
  | PyVal.vFloat q => some q
  | PyVal.vStr s => parseQchars s.data

/-- `is_multiple_of_025` of `src/main.py`: `None` counts as a multiple;
a value that coerces to a number `num` is on-grid iff
`abs((num * 4) % 1) < 0.01`; a non-coercible value is not a multiple. -/
def is_multiple_of_025 (val : PyVal) : Bool :=
  match val with
  | PyVal.vNone => true
  | v =>
      match pyFloat v with
      | some num => pyAbs (pymod1 (num * 4)) < 1/100
      | none => false

/-- The numeric body of `validate_sphere_cylinder` after `float(val)`
succeeded with value `num`: range check, grid check via
`is_multiple_of_025`, rounding with tolerance `0.05`. -/
def vscNum (num : ℚ) (field : String) : Option ℚ × Option String × List Note :=
  if num < -20 ∨ num > 20 then
    (none, some "out_of_range", [Note.outOfRange field num])
  else if is_multiple_of_025 (PyVal.vFloat num) = false then
    let rounded : ℚ := (pyRound (num * 4) : ℚ) / 4
    if pyAbs (rounded - num) < 1/20 then
      (some rounded, some "rounded", [Note.rounded field num rounded])
    else
      (none, some "invalid", [Note.notMultiple field num])
  else
    (some num, some "valid", [])

/-- `validate_sphere_cylinder` of `src/main.py`: returns the validated
value, the status string (`none` for a `None` input, mirroring the
source's `return None, None`), and the notes appended during the call. -/
def validate_sphere_cylinder (val : PyVal) (field : String) :
    Option ℚ × Option String × List Note :=
  match val with
  | PyVal.vNone => (none, none, [])
  | v =>
      match pyFloat v with
      | none => (none, some "invalid_format", [Note.invalidFormat field v])
      | some num => vscNum num field

/-- A `None`-or-float value written back into the record. -/
def pyOfOpt : Option ℚ → PyVal
  | none => PyVal.vNone
  | some q => PyVal.vFloat q

/-- One eye's candidate dictionary (`right_eye` / `left_eye`): the four
optional candidate values; `vNone` models both a `None` entry and a
missing key, matching the source's `dict.get`. -/
structure EyeData where
  sphere : PyVal
  cylinder : PyVal
  axis : PyVal
  add : PyVal
  deriving DecidableEq, Repr

/-- The cylinder-is-zero test of the axis rule:
`cyl == 0 or (isinstance(cyl, (int, float)) and float(cyl) == 0)` —
true exactly for a numeric (int or float) zero; `None` and strings are
never equal to `0`. -/
def cylIsZero (cyl : PyVal) : Bool :=
  match cyl with
  | PyVal.vInt n => n = 0
  | PyVal.vFloat q => q = 0
  | _ => false

/-- The axis branch of `validate_and_fix_prescription`: skip a `None`
candidate; coerce via `int(float(_))` (failure → note, null); if the
stored cylinder is numerically zero → note, null; range-check `0..180`;
otherwise store the truncated integer. -/
def axisStep (axisVal : PyVal) (cyl : PyVal) (eye : String) : PyVal × List Note :=
  match axisVal with
  | PyVal.vNone => (PyVal.vNone, [])
  | v =>
      match pyFloat v with
      | none => (PyVal.vNone, [Note.axisInvalidFormat eye v])
      | some q =>
          let axisInt := pyTrunc q
          if cylIsZero cyl then (PyVal.vNone, [Note.axisCylZero eye])
          else if axisInt < 0 ∨ axisInt > 180 then
            (PyVal.vNone, [Note.axisOutOfRange eye axisInt])
          else (PyVal.vInt axisInt, [])

/-- The ADD-power branch of `validate_and_fix_prescription`: skip a
`None` candidate; run `validate_sphere_cylinder`; a null result stores
null; a negative validated value stores null with a note; a validated
value outside `0.75..3.50` keeps the original candidate and only notes;
otherwise the validated float is stored. -/
def addStep (addVal : PyVal) (eye : String) : PyVal × List Note :=
  match addVal with
  | PyVal.vNone => (PyVal.vNone, [])
  | v =>
      match validate_sphere_cylinder v (eye ++ " add") with
      | (some q, _, notes) =>
          if q < 0 then (PyVal.vNone, notes ++ [Note.addNegative eye q])
          else if q < 3/4 ∨ q > 7/2 then (v, notes ++ [Note.addOutsideTypical eye q])
          else (PyVal.vFloat q, notes)
      | (none, _, notes) => (PyVal.vNone, notes)

/-- The write-back after `validate_sphere_cylinder`:
`if status != "valid": eye_data[field] = value` — the field is
overwritten only when the status is not `"valid"`; a `"valid"` candidate
keeps its original (possibly string- or int-typed) form. -/
def applyStore (orig : PyVal) (res : Option ℚ × Option String × List Note) : PyVal :=
  if res.2.1 = some "valid" then orig else pyOfOpt res.1

/-- Per-eye processing of `validate_and_fix_prescription`, in source
order: sphere, cylinder, axis (reading the just-stored cylinder), add.
A missing or `None` eye entry is skipped. -/
def processEye (ed : Option EyeData) (eye : String) : Option EyeData × List Note :=
  match ed with
  | none => (none, [])
  | some e =>
      let sres := validate_sphere_cylinder e.sphere (eye ++ " sphere")
      let sphere1 := applyStore e.sphere sres
      let cres := validate_sphere_cylinder e.cylinder (eye ++ " cylinder")
      let cylinder1 := applyStore e.cylinder cres
      let ares := axisStep e.axis cylinder1 eye
      let dres := addStep e.add eye
      (some { sphere := sphere1, cylinder := cylinder1, axis := ares.1, add := dres.1 },
        sres.2.2 ++ cres.2.2 ++ ares.2 ++ dres.2)

/-- Python's `str.split(sep)` (auxiliary, with accumulator). -/
def splitCharAux (sep : Char) : List Char → List Char → List (List Char)
  | [], acc => [acc.reverse]
  | c :: rest, acc =>
      if c = sep then acc.reverse :: splitCharAux sep rest []
      else splitCharAux sep rest (c :: acc)

/-- Python's `str.split(sep)` for a one-character separator. -/
def splitChar (sep : Char) (l : List Char) : List (List Char) :=
  splitCharAux sep l []

/-- Python's `sep.join(parts)` for a one-character separator. -/
def joinChar (sep : Char) : List (List Char) → List Char
  | [] => []
  | [p] => p
  | p :: ps => p ++ sep :: joinChar sep ps

/-- Python's `str(k)` for an integer, as characters. -/
def intStr (k : ℤ) : List Char := (toString k).data

/-- Coerce every part with `float`; any failure fails the whole list
(the source's list comprehension raises on the first bad part). -/
def parseAllQ : List (List Char) → Option (List ℚ)
  | [] => some []
  | p :: ps =>
      match parseQchars p, parseAllQ ps with
      | some q, some qs => some (q :: qs)
      | _, _ => none

/-- The PD extraction of `validate_and_fix_prescription`:
`pd_str = str(pd_val).strip()`; if it contains `/`, split on `/`, keep
the parts nonempty after stripping, and coerce each with `float`;
otherwise coerce the whole string.  For `int` and `float` inputs,
`str()` renders a plain numeral with no `/` and `float(str(x)) = x`,
so those cases yield their one-element list directly. -/
def pdParts (v : PyVal) : Option (List ℚ) :=
  match v with
  | PyVal.vNone => none
  | PyVal.vInt n => some [(n : ℚ)]
  | PyVal.vFloat q => some [q]
  | PyVal.vStr s =>
      let t := stripChars s.data
      if '/' ∈ t then
        parseAllQ (((splitChar '/' t).map stripChars).filter (fun p => !p.isEmpty))
      else
        (parseQchars t).map (fun q => [q])

/-- The range loop over the PD parts: each part outside `[50, 75]`
produces a note, the others survive, in original order. -/
def pdScan : List ℚ → List Note × List ℚ
  | [] => ([], [])
  | q :: qs =>
      let r := pdScan qs
      if q < 50 ∨ q > 75 then (Note.pdOutsideRange q :: r.1, r.2)
      else (r.1, q :: r.2)

/-- The pupillary-distance branch of `validate_and_fix_prescription`:
skip `None`; a coercion failure anywhere gives null plus one note; each
numeric part outside `[50, 75]` is dropped with a note; no survivor →
null, one survivor → its truncated int, several survivors → the
`/`-joined string of their truncated ints in original order. -/
def pdStep (pdVal : PyVal) : PyVal × List Note :=
  match pdVal with
  | PyVal.vNone => (PyVal.vNone, [])
  | v =>
      match pdParts v with
      | none => (PyVal.vNone, [Note.pdInvalidFormat v])
      | some qs =>
          let r := pdScan qs
          match r.2 with
          | [] => (PyVal.vNone, r.1)
          | [q] => (PyVal.vInt (pyTrunc q), r.1)
          | l => (PyVal.vStr (String.mk (joinChar '/' (l.map (fun q => intStr (pyTrunc q))))),
                  r.1)

/-- Field order of a date format: month/day/year, day/month/year, or
year/month/day. -/
inductive DOrder where
  | mdy | dmy | ymd
  deriving DecidableEq, Repr

/-- One `strptime` format of the source's `date_formats` list: the
separator, the field order, and whether the year is the 2-digit `%y`. -/
structure DFormat where
  sep : Char
  order : DOrder
  shortYear : Bool
  deriving DecidableEq, Repr

/-- The `date_formats` list of `validate_and_fix_prescription`, in
source order: `%m/%d/%Y`, `%m-%d-%Y`, `%d/%m/%Y`, `%d-%m-%Y`,
`%Y/%m/%d`, `%Y-%m-%d`, `%m/%d/%y`, `%m-%d-%y`, `%d/%m/%y`,
`%d-%m-%y`. -/
def date_formats : List DFormat :=
  [⟨'/', DOrder.mdy, false⟩, ⟨'-', DOrder.mdy, false⟩,
   ⟨'/', DOrder.dmy, false⟩, ⟨'-', DOrder.dmy, false⟩,
   ⟨'/', DOrder.ymd, false⟩, ⟨'-', DOrder.ymd, false⟩,
   ⟨'/', DOrder.mdy, true⟩, ⟨'-', DOrder.mdy, true⟩,
   ⟨'/', DOrder.dmy, true⟩, ⟨'-', DOrder.dmy, true⟩]

/-- A `%m`/`%d` `strptime` field: a nonempty digit run of at most
`maxLen` digits (CPython's month and day patterns match one or two
digits; out-of-range values are rejected by the validity check in
`parseFields`, giving the same accepted/rejected outcomes as CPython's
value-constrained regexes). -/
def numField (p : List Char) (maxLen : ℕ) : Option ℕ :=
  if p ≠ [] ∧ p.length ≤ maxLen ∧ p.all Char.isDigit then some (digitsToNat p) else none

/-- A year `strptime` field: a digit run of exactly `len` digits, as in
CPython's patterns for `%Y` (`\d\d\d\d`) and `%y` (`\d\d`). -/
def numFieldExact (p : List Char) (len : ℕ) : Option ℕ :=
  if p ≠ [] ∧ p.length = len ∧ p.all Char.isDigit then some (digitsToNat p) else none

/-- Gregorian leap-year rule. -/
def isLeap (y : ℕ) : Bool := y % 4 = 0 && (y % 100 ≠ 0 || y % 400 = 0)

/-- Days in a month (month assumed in `1..12`). -/
def daysInMonth (y m : ℕ) : ℕ :=
  if m = 2 then (if isLeap y then 29 else 28)
  else if m = 4 ∨ m = 6 ∨ m = 9 ∨ m = 11 then 30
  else 31

/-- `strptime`'s `%y` mapping: `00-68` → `2000-2068`, `69-99` →
`1969-1999`. -/
def expandYear2 (yy : ℕ) : ℕ := if yy ≤ 68 then 2000 + yy else 1900 + yy

/-- Modelled CPython `datetime.strptime` for one format of
`date_formats`: the three fields must be digit runs joined by the
format's separator (`%m`/`%d` one or two digits; `%Y` exactly four
digits and `%y` exactly two, as in CPython's `\d\d\d\d` / `\d\d`
patterns), consuming the whole string, with month range, day-of-month
range and `MINYEAR ≥ 1` validity; a 2-digit year is expanded via
`expandYear2`. -/
def parseFields (yp mp dp : List Char) (shortYear : Bool) : Option (ℕ × ℕ × ℕ) :=
  match numFieldExact yp (if shortYear then 2 else 4), numField mp 2, numField dp 2 with
  | some yraw, some m, some d =>
      let y := if shortYear then expandYear2 yraw else yraw
      if 1 ≤ y ∧ 1 ≤ m ∧ m ≤ 12 ∧ 1 ≤ d ∧ d ≤ daysInMonth y m then
        some (y, m, d)
      else none
  | _, _, _ => none

def parseFormat (f : DFormat) (l : List Char) : Option (ℕ × ℕ × ℕ) :=
  match splitChar f.sep l with
  | [p1, p2, p3] =>
      match f.order with
      | DOrder.mdy => parseFields p3 p1 p2 f.shortYear
      | DOrder.dmy => parseFields p3 p2 p1 f.shortYear
      | DOrder.ymd => parseFields p1 p2 p3 f.shortYear
  | _ => none

/-- The `strptime` loop of `validate_and_fix_prescription`: the first
format of `date_formats` that parses the whole (stripped) string wins. -/
def dateParseStr (l : List Char) : Option (ℕ × ℕ × ℕ) :=
  date_formats.findSome? (fun f => parseFormat f (stripChars l))

/-- The date parse applied to the candidate value.  Only a string
candidate can match a format: `str()` of an `int` has no separator
inside the digits (a sign yields an empty first piece), and `str()` of a
(finite) `float` always contains a `.` or `e`, which no all-digit field
accepts; both therefore fail every format. -/
def dateParse (v : PyVal) : Option (ℕ × ℕ × ℕ) :=
  match v with
  | PyVal.vStr s => dateParseStr s.data
  | _ => none

/-- Two-digit zero-padded decimal rendering (`%m`, `%d`). -/
def pad2 (n : ℕ) : List Char := [Char.ofNat (48 + n / 10 % 10), Char.ofNat (48 + n % 10)]

/-- Four-digit zero-padded decimal rendering (`%Y`). -/
def pad4 (n : ℕ) : List Char :=
  [Char.ofNat (48 + n / 1000 % 10), Char.ofNat (48 + n / 100 % 10),
   Char.ofNat (48 + n / 10 % 10), Char.ofNat (48 + n % 10)]

/-- The year as rendered by glibc `strftime('%Y')`: plain unpadded
decimal.  Years reaching this function come from a `strptime` parse and
are therefore at most `9999` (`%Y` is exactly four digits, `%y` maps
into `1969..2068`), so the four-digit branch covers every remaining
case. -/
def yearStr (y : ℕ) : List Char :=
  if y < 10 then [Char.ofNat (48 + y % 10)]
  else if y < 100 then [Char.ofNat (48 + y / 10 % 10), Char.ofNat (48 + y % 10)]
  else if y < 1000 then
    [Char.ofNat (48 + y / 100 % 10), Char.ofNat (48 + y / 10 % 10), Char.ofNat (48 + y % 10)]
  else pad4 y

/-- `strftime('%Y-%m-%d')` on Linux: unpadded year (glibc does not
zero-pad `%Y`), zero-padded month and day. -/
def renderISO (y m d : ℕ) : List Char := yearStr y ++ '-' :: pad2 m ++ '-' :: pad2 d

/-- The date branch of `validate_and_fix_prescription`: skip `None`;
re-render a parsed date as ISO `YYYY-MM-DD`; leave an unparseable
candidate untouched with one note. -/
def dateStep (v : PyVal) : PyVal × List Note :=
  match v with
  | PyVal.vNone => (PyVal.vNone, [])
  | v =>
      match dateParse v with
      | some (y, m, d) => (PyVal.vStr (String.mk (renderISO y m d)), [])
      | none => (v, [Note.dateUnparsed v])

/-- The `data` dictionary of the result: the two eyes (`none` models a
missing or `None` eye entry, which the engine skips), the PD, doctor
name and date candidates. -/
structure RecordData where
  right_eye : Option EyeData
  left_eye : Option EyeData
  pupillary_distance : PyVal
  doctor_name : PyVal
  date : PyVal
  deriving DecidableEq, Repr

/-- The full result mapping: `status`, `message`, `data` (`none` models
an absent or `None` data entry), and the diagnostics dictionary, split
into the two keys the engine writes (`validation_notes`,
`validation_status`; `none` = key absent) and the remaining entries it
never touches. -/
structure PrescriptionResult where
  status : PyVal
  message : PyVal
  data : Option RecordData
  validation_notes : Option (List Note)
  validation_status : Option String
  diagnostics_rest : List (String × PyVal)
  deriving DecidableEq, Repr

/-- `validate_and_fix_prescription` of `src/main.py`.  The Python
function mutates `result` in place and returns the same object; the
model returns the final state of that object. -/
def validate_and_fix_prescription (result : PrescriptionResult) : PrescriptionResult :=
  match result.data with
  | none => result
  | some d =>
      let r := processEye d.right_eye "right_eye"
      let l := processEye d.left_eye "left_eye"
      let p := pdStep d.pupillary_distance
      let dt := dateStep d.date
      let notes := r.2 ++ l.2 ++ p.2 ++ dt.2
      { result with
        data := some { d with right_eye := r.1, left_eye := l.1,
                              pupillary_distance := p.1, date := dt.1 },
        validation_notes := some notes,
        validation_status := some (if notes.isEmpty then "passed" else "warnings") }


theorem pymod1_intCast (k : ℤ) : pymod1 (k : ℚ) = 0 := by
  simp [pymod1]

theorem div_four_mul_four (k : ℤ) : ((k : ℚ) / 4) * 4 = (k : ℚ) := by ring

theorem pyAbs_zero : pyAbs 0 = 0 := by simp [pyAbs]

theorem le_pyRound (n : ℤ) (q : ℚ) (h : (n : ℚ) ≤ q) : n ≤ pyRound q := by
  have hf : n ≤ ⌊q⌋ := Int.le_floor.2 h
  unfold pyRound
  split
  · exact hf
  · split
    · omega
    · split <;> omega

theorem pyRound_le (n : ℤ) (q : ℚ) (h : q ≤ (n : ℚ)) : pyRound q ≤ n := by
  have hfl : (⌊q⌋ : ℚ) ≤ q := Int.floor_le q
  have hf : ⌊q⌋ ≤ n := by exact_mod_cast le_trans hfl h
  unfold pyRound
  split
  · exact hf
  · rename_i h1
    push_neg at h1
    split
    · rename_i h2
      have : (⌊q⌋ : ℚ) < (n : ℚ) := by linarith
      have : ⌊q⌋ < n := by exact_mod_cast this
      omega
    · rename_i h2
      push_neg at h2
      have he : q - (⌊q⌋ : ℚ) = 1/2 := le_antisymm h2 h1
      have : (⌊q⌋ : ℚ) < (n : ℚ) := by linarith
      have : ⌊q⌋ < n := by exact_mod_cast this
      split <;> omega

theorem pyTrunc_intCast (k : ℤ) : pyTrunc (k : ℚ) = k := by
  unfold pyTrunc
  split
  · simp
  · rw [← Int.cast_neg, Int.floor_intCast]; omega

theorem vscNum_eq (num : ℚ) (f : String) :
    vscNum num f =
      if num < -20 ∨ num > 20 then (none, some "out_of_range", [Note.outOfRange f num])
      else if pyAbs (pymod1 (num * 4)) < 1/100 then (some num, some "valid", [])
      else if pyAbs ((pyRound (num * 4) : ℚ) / 4 - num) < 1/20 then
        (some ((pyRound (num * 4) : ℚ) / 4), some "rounded",
          [Note.rounded f num ((pyRound (num * 4) : ℚ) / 4)])
      else (none, some "invalid", [Note.notMultiple f num]) := by
  have hmul : is_multiple_of_025 (PyVal.vFloat num) =
      decide (pyAbs (pymod1 (num * 4)) < 1/100) := by
    simp [is_multiple_of_025, pyFloat]
  unfold vscNum
  simp only [hmul, decide_eq_false_iff_not]
  by_cases h1 : num < -20 ∨ num > 20
  · rw [if_pos h1, if_pos h1]
  · rw [if_neg h1, if_neg h1]
    by_cases h2 : pyAbs (pymod1 (num * 4)) < 1/100
    · rw [if_neg (not_not_intro h2), if_pos h2]
    · rw [if_pos h2, if_neg h2]

theorem vsc_of_pyFloat (v : PyVal) (q : ℚ) (f : String) (h : pyFloat v = some q) :
    validate_sphere_cylinder v f = vscNum q f := by
  cases v with
  | vNone => simp [pyFloat] at h
  | vInt n => simp only [validate_sphere_cylinder, h]
  | vFloat x => simp only [validate_sphere_cylinder, h]
  | vStr s => simp only [validate_sphere_cylinder, h]

theorem rounded_bounds (x : ℚ) (h1 : -20 ≤ x) (h2 : x ≤ 20) :
    -20 ≤ ((pyRound (x * 4) : ℚ) / 4) ∧ ((pyRound (x * 4) : ℚ) / 4) ≤ 20 := by
  have hlo : (-80 : ℤ) ≤ pyRound (x * 4) := le_pyRound _ _ (by push_cast; linarith)
  have hhi : pyRound (x * 4) ≤ (80 : ℤ) := pyRound_le _ _ (by push_cast; linarith)
  have hlo' : ((-80 : ℤ) : ℚ) ≤ (pyRound (x * 4) : ℚ) := by exact_mod_cast hlo
  have hhi' : (pyRound (x * 4) : ℚ) ≤ ((80 : ℤ) : ℚ) := by exact_mod_cast hhi
  push_cast at hlo' hhi'
  constructor <;> linarith

theorem rounded_on_grid (k : ℤ) : pyAbs (pymod1 (((k : ℚ) / 4) * 4)) < 1/100 := by
  rw [div_four_mul_four, pymod1_intCast, pyAbs_zero]
  norm_num

theorem vsc_some (v : PyVal) (q : ℚ) (f : String) (st : Option String) (ns : List Note)
    (h : validate_sphere_cylinder v f = (some q, st, ns)) :
    -20 ≤ q ∧ q ≤ 20 ∧ pyAbs (pymod1 (q * 4)) < 1/100 := by
  have hv : ∃ x, pyFloat v = some x := by
    cases v with
    | vNone => simp [validate_sphere_cylinder] at h
    | vInt n => exact ⟨n, rfl⟩
    | vFloat x => exact ⟨x, rfl⟩
    | vStr s =>
        cases hp : parseQchars s.data with
        | none => simp [validate_sphere_cylinder, pyFloat, hp] at h
        | some x => exact ⟨x, by simp [pyFloat, hp]⟩
  obtain ⟨x, hx⟩ := hv
  rw [vsc_of_pyFloat v x f hx, vscNum_eq] at h
  by_cases h1 : x < -20 ∨ x > 20
  · simp [h1] at h
  · rw [if_neg h1] at h
    push_neg at h1
    by_cases h2 : pyAbs (pymod1 (x * 4)) < 1/100
    · rw [if_pos h2] at h
      rw [Prod.ext_iff] at h
      obtain ⟨hq, -⟩ := h
      obtain rfl : x = q := by simpa using hq
      exact ⟨h1.1, h1.2, h2⟩
    · rw [if_neg h2] at h
      by_cases h3 : pyAbs ((pyRound (x * 4) : ℚ) / 4 - x) < 1/20
      · rw [if_pos h3] at h
        rw [Prod.ext_iff] at h
        obtain ⟨hq, -⟩ := h
        obtain rfl : ((pyRound (x * 4) : ℚ) / 4) = q := by simpa using hq
        obtain ⟨hb1, hb2⟩ := rounded_bounds x h1.1 h1.2
        exact ⟨hb1, hb2, rounded_on_grid _⟩
      · rw [if_neg h3] at h
        simp at h



/-- Invariant of a validated sphere or cylinder field: null, or a value
coercing to a number within range that passes the code's grid test. -/
def sphereCylInv (v : PyVal) : Prop :=
  v = PyVal.vNone ∨
    ∃ q, pyFloat v = some q ∧ -20 ≤ q ∧ q ≤ 20 ∧ pyAbs (pymod1 (q * 4)) < 1/100

/-- Invariant of a validated axis field: null or an `int` in `0..180`. -/
def axisInv (v : PyVal) : Prop :=
  v = PyVal.vNone ∨ ∃ k, v = PyVal.vInt k ∧ 0 ≤ k ∧ k ≤ 180

/-- Invariant of a validated add field: null, or a value coercing to a
number within the sphere/cylinder range. -/
def addInv (v : PyVal) : Prop :=
  v = PyVal.vNone ∨ ∃ q, pyFloat v = some q ∧ -20 ≤ q ∧ q ≤ 20

theorem vsc_vNone (f : String) :
    validate_sphere_cylinder PyVal.vNone f = (none, none, []) := rfl

theorem vsc_invalid_format (v : PyVal) (f : String) (hv : v ≠ PyVal.vNone)
    (h : pyFloat v = none) :
    validate_sphere_cylinder v f =
      (none, some "invalid_format", [Note.invalidFormat f v]) := by
  cases v with
  | vNone => exact absurd rfl hv
  | vInt n => simp [pyFloat] at h
  | vFloat x => simp [pyFloat] at h
  | vStr s => simp only [validate_sphere_cylinder, h]

theorem vsc_float_valid (q : ℚ) (f : String) (hb1 : -20 ≤ q) (hb2 : q ≤ 20)
    (hg : pyAbs (pymod1 (q * 4)) < 1/100) :
    validate_sphere_cylinder (PyVal.vFloat q) f = (some q, some "valid", []) := by
  rw [vsc_of_pyFloat (PyVal.vFloat q) q f rfl, vscNum_eq,
    if_neg (by push_neg; exact ⟨hb1, hb2⟩), if_pos hg]

theorem applyStore_vNone (f : String) :
    applyStore PyVal.vNone (validate_sphere_cylinder PyVal.vNone f) = PyVal.vNone := rfl

theorem applyStore_inv_aux (v : PyVal) (q : ℚ) (f : String) (hp : pyFloat v = some q) :
    sphereCylInv (applyStore v (validate_sphere_cylinder v f)) := by
  rw [vsc_of_pyFloat v q f hp, vscNum_eq]
  by_cases h1 : q < -20 ∨ q > 20
  · rw [if_pos h1]
    left
    simp [applyStore, pyOfOpt]
  · rw [if_neg h1]
    push_neg at h1
    by_cases h2 : pyAbs (pymod1 (q * 4)) < 1/100
    · rw [if_pos h2]
      right
      refine ⟨q, ?_, h1.1, h1.2, h2⟩
      simpa [applyStore] using hp
    · rw [if_neg h2]
      by_cases h3 : pyAbs ((pyRound (q * 4) : ℚ) / 4 - q) < 1/20
      · rw [if_pos h3]
        right
        obtain ⟨hb1, hb2⟩ := rounded_bounds q h1.1 h1.2
        refine ⟨(pyRound (q * 4) : ℚ) / 4, ?_, hb1, hb2, rounded_on_grid _⟩
        simp [applyStore, pyOfOpt, pyFloat]
      · rw [if_neg h3]
        left
        simp [applyStore, pyOfOpt]

theorem applyStore_inv (v : PyVal) (f : String) :
    sphereCylInv (applyStore v (validate_sphere_cylinder v f)) := by
  cases v with
  | vNone => rw [applyStore_vNone]; exact Or.inl rfl
  | vInt n => exact applyStore_inv_aux _ (n : ℚ) _ rfl
  | vFloat x => exact applyStore_inv_aux _ x _ rfl
  | vStr s =>
      cases hp : parseQchars s.data with
      | none =>
          rw [vsc_invalid_format _ f (by simp) (by simp [pyFloat, hp])]
          left
          simp [applyStore, pyOfOpt]
      | some x =>
          exact applyStore_inv_aux _ x _ (by simp [pyFloat, hp])


theorem axisStep_eq (a cyl : PyVal) (eye : String) (q : ℚ)
    (hp : pyFloat a = some q) :
    axisStep a cyl eye =
      if cylIsZero cyl then (PyVal.vNone, [Note.axisCylZero eye])
      else if pyTrunc q < 0 ∨ pyTrunc q > 180 then
        (PyVal.vNone, [Note.axisOutOfRange eye (pyTrunc q)])
      else (PyVal.vInt (pyTrunc q), []) := by
  cases a with
  | vNone => simp [pyFloat] at hp
  | vInt n => simp only [axisStep, hp]
  | vFloat x => simp only [axisStep, hp]
  | vStr s => simp only [axisStep, hp]

theorem axisStep_vNone (cyl : PyVal) (eye : String) :
    axisStep PyVal.vNone cyl eye = (PyVal.vNone, []) := rfl

theorem axisStep_invalid (a cyl : PyVal) (eye : String) (ha : a ≠ PyVal.vNone)
    (hp : pyFloat a = none) :
    axisStep a cyl eye = (PyVal.vNone, [Note.axisInvalidFormat eye a]) := by
  cases a with
  | vNone => exact absurd rfl ha
  | vInt n => simp [pyFloat] at hp
  | vFloat x => simp [pyFloat] at hp
  | vStr s => simp only [axisStep, hp]

theorem axisStep_inv (a cyl : PyVal) (eye : String) : axisInv (axisStep a cyl eye).1 := by
  cases a with
  | vNone => exact Or.inl rfl
  | vInt n =>
      rw [axisStep_eq (PyVal.vInt n) cyl eye (n : ℚ) rfl]
      by_cases h1 : cylIsZero cyl
      · simp [h1]; exact Or.inl rfl
      · rw [if_neg h1]
        by_cases h2 : pyTrunc (n : ℚ) < 0 ∨ pyTrunc (n : ℚ) > 180
        · simp [h2]; exact Or.inl rfl
        · rw [if_neg h2]
          push_neg at h2
          exact Or.inr ⟨pyTrunc (n : ℚ), rfl, h2.1, h2.2⟩
  | vFloat x =>
      rw [axisStep_eq (PyVal.vFloat x) cyl eye x rfl]
      by_cases h1 : cylIsZero cyl
      · simp [h1]; exact Or.inl rfl
      · rw [if_neg h1]
        by_cases h2 : pyTrunc x < 0 ∨ pyTrunc x > 180
        · simp [h2]; exact Or.inl rfl
        · rw [if_neg h2]
          push_neg at h2
          exact Or.inr ⟨pyTrunc x, rfl, h2.1, h2.2⟩
  | vStr s =>
      cases hp : parseQchars s.data with
      | none =>
          rw [axisStep_invalid _ cyl eye (by simp) (by simp [pyFloat, hp])]
          exact Or.inl rfl
      | some x =>
          rw [axisStep_eq _ cyl eye x (by simp [pyFloat, hp])]
          by_cases h1 : cylIsZero cyl
          · simp [h1]; exact Or.inl rfl
          · rw [if_neg h1]
            by_cases h2 : pyTrunc x < 0 ∨ pyTrunc x > 180
            · simp [h2]; exact Or.inl rfl
            · rw [if_neg h2]
              push_neg at h2
              exact Or.inr ⟨pyTrunc x, rfl, h2.1, h2.2⟩


theorem vsc_some_pyFloat (v : PyVal) (q : ℚ) (f : String) (st : Option String)
    (ns : List Note) (h : validate_sphere_cylinder v f = (some q, st, ns)) :
    ∃ x, pyFloat v = some x := by
  cases v with
  | vNone => simp [validate_sphere_cylinder] at h
  | vInt n => exact ⟨n, rfl⟩
  | vFloat x => exact ⟨x, rfl⟩
  | vStr s =>
      cases hp : parseQchars s.data with
      | none => simp [validate_sphere_cylinder, pyFloat, hp] at h
      | some x => exact ⟨x, by simp [pyFloat, hp]⟩

theorem vsc_some_orig (v : PyVal) (q : ℚ) (f : String) (st : Option String)
    (ns : List Note) (h : validate_sphere_cylinder v f = (some q, st, ns)) :
    ∃ num, pyFloat v = some num ∧ -20 ≤ num ∧ num ≤ 20 := by
  obtain ⟨x, hx⟩ := vsc_some_pyFloat v q f st ns h
  rw [vsc_of_pyFloat v x f hx, vscNum_eq] at h
  by_cases h1 : x < -20 ∨ x > 20
  · simp [h1] at h
  · push_neg at h1
    exact ⟨x, hx, h1.1, h1.2⟩

theorem addStep_vNone (eye : String) : addStep PyVal.vNone eye = (PyVal.vNone, []) := rfl

theorem addStep_res_none (a : PyVal) (eye : String) (st : Option String)
    (ns : List Note) (ha : a ≠ PyVal.vNone)
    (h : validate_sphere_cylinder a (eye ++ " add") = (none, st, ns)) :
    addStep a eye = (PyVal.vNone, ns) := by
  cases a with
  | vNone => exact absurd rfl ha
  | vInt n => simp only [addStep, h]
  | vFloat x => simp only [addStep, h]
  | vStr s => simp only [addStep, h]

theorem addStep_res_some (a : PyVal) (eye : String) (q : ℚ) (st : Option String)
    (ns : List Note) (ha : a ≠ PyVal.vNone)
    (h : validate_sphere_cylinder a (eye ++ " add") = (some q, st, ns)) :
    addStep a eye =
      if q < 0 then (PyVal.vNone, ns ++ [Note.addNegative eye q])
      else if q < 3/4 ∨ q > 7/2 then (a, ns ++ [Note.addOutsideTypical eye q])
      else (PyVal.vFloat q, ns) := by
  cases a with
  | vNone => exact absurd rfl ha
  | vInt n => simp only [addStep, h]
  | vFloat x => simp only [addStep, h]
  | vStr s => simp only [addStep, h]

theorem addStep_inv_aux (a : PyVal) (eye : String) (ha : a ≠ PyVal.vNone) :
    addInv (addStep a eye).1 := by
  rcases hvsc : validate_sphere_cylinder a (eye ++ " add") with ⟨oq, st, ns⟩
  cases oq with
  | none =>
      rw [addStep_res_none a eye st ns ha hvsc]
      exact Or.inl rfl
  | some q =>
      rw [addStep_res_some a eye q st ns ha hvsc]
      by_cases hneg : q < 0
      · simp only [hneg, if_true]
        exact Or.inl rfl
      · rw [if_neg hneg]
        by_cases hband : q < 3/4 ∨ q > 7/2
        · rw [if_pos hband]
          obtain ⟨num, hnum, hb1, hb2⟩ := vsc_some_orig a q _ st ns hvsc
          exact Or.inr ⟨num, hnum, hb1, hb2⟩
        · rw [if_neg hband]
          obtain ⟨hb1, hb2, -⟩ := vsc_some a q _ st ns hvsc
          exact Or.inr ⟨q, rfl, hb1, hb2⟩

theorem addStep_inv (a : PyVal) (eye : String) : addInv (addStep a eye).1 := by
  cases a with
  | vNone => exact Or.inl rfl
  | vInt n => exact addStep_inv_aux _ eye (by simp)
  | vFloat x => exact addStep_inv_aux _ eye (by simp)
  | vStr s => exact addStep_inv_aux _ eye (by simp)

theorem applyStore_valid (v : PyVal) (q : ℚ) :
    applyStore v (some q, some "valid", []) = v := by
  simp [applyStore]

theorem applyStore_store (v : PyVal) (oq : Option ℚ) (st : Option String)
    (ns : List Note) (hst : st ≠ some "valid") :
    applyStore v (oq, st, ns) = pyOfOpt oq := by
  simp [applyStore, hst]

theorem applyStore_idem_aux (v : PyVal) (q : ℚ) (f : String) (hp : pyFloat v = some q) :
    applyStore (applyStore v (validate_sphere_cylinder v f))
      (validate_sphere_cylinder (applyStore v (validate_sphere_cylinder v f)) f) =
    applyStore v (validate_sphere_cylinder v f) := by
  have hv := vsc_of_pyFloat v q f hp
  rw [vscNum_eq] at hv
  by_cases h1 : q < -20 ∨ q > 20
  · rw [if_pos h1] at hv
    have hin : applyStore v (none, some "out_of_range", [Note.outOfRange f q]) =
        PyVal.vNone := applyStore_store _ _ _ _ (by decide)
    rw [hv, hin]
    exact applyStore_vNone f
  · rw [if_neg h1] at hv
    push_neg at h1
    by_cases h2 : pyAbs (pymod1 (q * 4)) < 1/100
    · rw [if_pos h2] at hv
      have hin : applyStore v (some q, some "valid", []) = v := applyStore_valid v q
      rw [hv, hin, hv, hin]
    · rw [if_neg h2] at hv
      by_cases h3 : pyAbs ((pyRound (q * 4) : ℚ) / 4 - q) < 1/20
      · rw [if_pos h3] at hv
        have hin : applyStore v (some ((pyRound (q * 4) : ℚ) / 4), some "rounded",
            [Note.rounded f q ((pyRound (q * 4) : ℚ) / 4)]) =
            PyVal.vFloat ((pyRound (q * 4) : ℚ) / 4) :=
          applyStore_store _ _ _ _ (by decide)
        obtain ⟨hb1, hb2⟩ := rounded_bounds q h1.1 h1.2
        have hvalid := vsc_float_valid ((pyRound (q * 4) : ℚ) / 4) f hb1 hb2 (rounded_on_grid _)
        rw [hv, hin, hvalid, applyStore_valid]
      · rw [if_neg h3] at hv
        have hin : applyStore v (none, some "invalid", [Note.notMultiple f q]) =
            PyVal.vNone := applyStore_store _ _ _ _ (by decide)
        rw [hv, hin]
        exact applyStore_vNone f

theorem applyStore_idem (v : PyVal) (f : String) :
    applyStore (applyStore v (validate_sphere_cylinder v f))
      (validate_sphere_cylinder (applyStore v (validate_sphere_cylinder v f)) f) =
    applyStore v (validate_sphere_cylinder v f) := by
  cases v with
  | vNone => rw [applyStore_vNone]; exact applyStore_vNone f
  | vInt n => exact applyStore_idem_aux _ (n : ℚ) f rfl
  | vFloat x => exact applyStore_idem_aux _ x f rfl
  | vStr s =>
      cases hp : parseQchars s.data with
      | none =>
          have hv := vsc_invalid_format (PyVal.vStr s) f (by simp) (by simp [pyFloat, hp])
          have hin : applyStore (PyVal.vStr s)
              (none, some "invalid_format", [Note.invalidFormat f (PyVal.vStr s)]) =
              PyVal.vNone := applyStore_store _ _ _ _ (by decide)
          rw [hv, hin]
          exact applyStore_vNone f
      | some x => exact applyStore_idem_aux _ x f (by simp [pyFloat, hp])

theorem axisStep_idem_aux (a cyl : PyVal) (eye : String) (q : ℚ)
    (hp : pyFloat a = some q) :
    (axisStep (axisStep a cyl eye).1 cyl eye).1 = (axisStep a cyl eye).1 := by
  have hax := axisStep_eq a cyl eye q hp
  by_cases h1 : cylIsZero cyl
  · rw [hax, if_pos h1]
    rfl
  · rw [hax, if_neg h1]
    by_cases h2 : pyTrunc q < 0 ∨ pyTrunc q > 180
    · rw [if_pos h2]
      rfl
    · rw [if_neg h2]
      have hax2 := axisStep_eq (PyVal.vInt (pyTrunc q)) cyl eye ((pyTrunc q : ℤ) : ℚ) rfl
      rw [hax2, pyTrunc_intCast, if_neg h1, if_neg h2]

theorem axisStep_idem (a cyl : PyVal) (eye : String) :
    (axisStep (axisStep a cyl eye).1 cyl eye).1 = (axisStep a cyl eye).1 := by
  cases a with
  | vNone => rfl
  | vInt n => exact axisStep_idem_aux (PyVal.vInt n) cyl eye (n : ℚ) rfl
  | vFloat x => exact axisStep_idem_aux (PyVal.vFloat x) cyl eye x rfl
  | vStr s =>
      cases hp : parseQchars s.data with
      | none =>
          have hax := axisStep_invalid (PyVal.vStr s) cyl eye (by simp) (by simp [pyFloat, hp])
          rw [hax]
          rfl
      | some x => exact axisStep_idem_aux (PyVal.vStr s) cyl eye x (by simp [pyFloat, hp])


theorem addStep_idem_aux (a : PyVal) (eye : String) (ha : a ≠ PyVal.vNone) :
    (addStep (addStep a eye).1 eye).1 = (addStep a eye).1 := by
  rcases hvsc : validate_sphere_cylinder a (eye ++ " add") with ⟨oq, st, ns⟩
  cases oq with
  | none =>
      rw [addStep_res_none a eye st ns ha hvsc]
      rfl
  | some q =>
      have hres := addStep_res_some a eye q st ns ha hvsc
      by_cases hneg : q < 0
      · rw [hres, if_pos hneg]
        rfl
      · rw [hres, if_neg hneg]
        by_cases hband : q < 3/4 ∨ q > 7/2
        · rw [if_pos hband]
          show (addStep a eye).1 = a
          rw [hres, if_neg hneg, if_pos hband]
        · rw [if_neg hband]
          push_neg at hband
          obtain ⟨hb1, hb2, hg⟩ := vsc_some a q _ st ns hvsc
          have hvalid := vsc_float_valid q (eye ++ " add") hb1 hb2 hg
          have hres2 := addStep_res_some (PyVal.vFloat q) eye q (some "valid") []
            (by simp) hvalid
          rw [hres2, if_neg hneg, if_neg (by push_neg; exact ⟨hband.1, hband.2⟩)]

theorem addStep_idem (a : PyVal) (eye : String) :
    (addStep (addStep a eye).1 eye).1 = (addStep a eye).1 := by
  cases a with
  | vNone => rfl
  | vInt n => exact addStep_idem_aux (PyVal.vInt n) eye (by simp)
  | vFloat x => exact addStep_idem_aux (PyVal.vFloat x) eye (by simp)
  | vStr s => exact addStep_idem_aux (PyVal.vStr s) eye (by simp)


theorem splitCharAux_no_sep (sep : Char) (l acc : List Char) (h : sep ∉ l) :
    splitCharAux sep l acc = [acc.reverse ++ l] := by
  induction l generalizing acc with
  | nil => simp [splitCharAux]
  | cons c rest ih =>
      have hc : ¬c = sep := fun hc => h (hc ▸ List.mem_cons_self c rest)
      rw [splitCharAux, if_neg hc, ih _ (fun hm => h (List.mem_cons_of_mem c hm))]
      simp

theorem splitCharAux_sep_append (sep : Char) (p rest acc : List Char) (h : sep ∉ p) :
    splitCharAux sep (p ++ sep :: rest) acc =
      (acc.reverse ++ p) :: splitCharAux sep rest [] := by
  induction p generalizing acc with
  | nil => simp [splitCharAux]
  | cons c t ih =>
      have hc : ¬c = sep := fun hc => h (hc ▸ List.mem_cons_self c t)
      rw [List.cons_append, splitCharAux, if_neg hc,
        ih _ (fun hm => h (List.mem_cons_of_mem c hm))]
      simp

theorem splitChar_joinChar (sep : Char) (parts : List (List Char)) (hne : parts ≠ [])
    (h : ∀ p ∈ parts, sep ∉ p) :
    splitChar sep (joinChar sep parts) = parts := by
  induction parts with
  | nil => exact absurd rfl hne
  | cons p ps ih =>
      cases ps with
      | nil =>
          show splitChar sep (joinChar sep [p]) = [p]
          rw [joinChar]
          exact splitCharAux_no_sep sep p [] (h p (List.mem_cons_self p []))
      | cons q qs =>
          show splitChar sep (p ++ sep :: joinChar sep (q :: qs)) = p :: q :: qs
          unfold splitChar
          rw [splitCharAux_sep_append sep p _ [] (h p (List.mem_cons_self p _))]
          have := ih (by simp) (fun r hr => h r (List.mem_cons_of_mem p hr))
          unfold splitChar at this
          rw [this]
          rfl

theorem mem_joinChar (sep : Char) (parts : List (List Char)) (c : Char)
    (hc : c ∈ joinChar sep parts) : c = sep ∨ ∃ p ∈ parts, c ∈ p := by
  induction parts with
  | nil => simp [joinChar] at hc
  | cons p ps ih =>
      cases ps with
      | nil =>
          rw [joinChar] at hc
          exact Or.inr ⟨p, List.mem_cons_self p [], hc⟩
      | cons q qs =>
          have hj : joinChar sep (p :: q :: qs) = p ++ sep :: joinChar sep (q :: qs) := rfl
          rw [hj] at hc
          rcases List.mem_append.1 hc with h1 | h2
          · exact Or.inr ⟨p, List.mem_cons_self p _, h1⟩
          · rcases List.mem_cons.1 h2 with h3 | h4
            · exact Or.inl h3
            · rcases ih h4 with h5 | ⟨r, hr, hcr⟩
              · exact Or.inl h5
              · exact Or.inr ⟨r, List.mem_cons_of_mem p hr, hcr⟩

theorem sep_mem_joinChar (sep : Char) (p q : List Char) (rest : List (List Char)) :
    sep ∈ joinChar sep (p :: q :: rest) := by
  have hj : joinChar sep (p :: q :: rest) = p ++ sep :: joinChar sep (q :: rest) := rfl
  rw [hj]
  exact List.mem_append.2 (Or.inr (List.mem_cons_self sep _))

theorem dropWhile_eq_self_of_all (p : Char → Bool) (l : List Char)
    (h : ∀ c ∈ l, p c = false) : l.dropWhile p = l := by
  cases l with
  | nil => rfl
  | cons c t => simp [List.dropWhile_cons, h c (List.mem_cons_self c t)]

theorem stripChars_eq_self (l : List Char) (h : ∀ c ∈ l, c.isWhitespace = false) :
    stripChars l = l := by
  unfold stripChars
  rw [dropWhile_eq_self_of_all _ l h,
    dropWhile_eq_self_of_all _ l.reverse (fun c hc => h c (List.mem_reverse.1 hc)),
    List.reverse_reverse]


theorem ratOfDec_nat (n : ℕ) : ratOfDec (false, n, 0, 0) = (n : ℚ) := by
  simp [ratOfDec]

theorem pdIntFacts : ∀ k : ℤ, k ∈ Finset.Icc (50 : ℤ) 75 →
    intStr k ≠ [] ∧ '/' ∉ intStr k ∧ (∀ c ∈ intStr k, c.isWhitespace = false) ∧
      parseDec (intStr k) = some (false, k.toNat, 0, 0) := by decide

theorem pdInt_parse (k : ℤ) (h1 : 50 ≤ k) (h2 : k ≤ 75) :
    parseQchars (intStr k) = some ((k : ℚ)) := by
  have hmem : k ∈ Finset.Icc (50 : ℤ) 75 := Finset.mem_Icc.2 ⟨h1, h2⟩
  obtain ⟨-, -, -, hp⟩ := pdIntFacts k hmem
  rw [parseQchars, hp, Option.map_some', ratOfDec_nat]
  have hk : ((k.toNat : ℕ) : ℤ) = k := Int.toNat_of_nonneg (by omega)
  exact congrArg some (by exact_mod_cast congrArg (fun z : ℤ => (z : ℚ)) hk)

theorem pdScan_valid_bounds (qs : List ℚ) :
    ∀ q ∈ (pdScan qs).2, 50 ≤ q ∧ q ≤ 75 := by
  induction qs with
  | nil => intro q hq; simp [pdScan] at hq
  | cons x xs ih =>
      intro q hq
      rw [pdScan] at hq
      by_cases hx : x < 50 ∨ x > 75
      · rw [if_pos hx] at hq
        exact ih q hq
      · rw [if_neg hx] at hq
        push_neg at hx
        rcases List.mem_cons.1 hq with rfl | hq2
        · exact ⟨hx.1, hx.2⟩
        · exact ih q hq2

theorem pdScan_all_valid (qs : List ℚ) (h : ∀ q ∈ qs, 50 ≤ q ∧ q ≤ 75) :
    pdScan qs = ([], qs) := by
  induction qs with
  | nil => rfl
  | cons x xs ih =>
      have hx := h x (List.mem_cons_self x xs)
      rw [pdScan, if_neg (by push_neg; exact ⟨hx.1, hx.2⟩),
        ih (fun q hq => h q (List.mem_cons_of_mem x hq))]

theorem pyTrunc_pd_bounds (q : ℚ) (h1 : 50 ≤ q) (h2 : q ≤ 75) :
    50 ≤ pyTrunc q ∧ pyTrunc q ≤ 75 := by
  have h0 : (0 : ℚ) ≤ q := by linarith
  rw [pyTrunc, if_pos h0]
  constructor
  · exact Int.le_floor.2 (by push_cast; linarith)
  · have := Int.floor_le q
    have : (⌊q⌋ : ℚ) ≤ 75 := le_trans this h2
    exact_mod_cast this

theorem parseAllQ_map_intStr (l : List ℚ) (h : ∀ q ∈ l, 50 ≤ q ∧ q ≤ 75) :
    parseAllQ (l.map (fun q => intStr (pyTrunc q))) =
      some (l.map (fun q => ((pyTrunc q : ℤ) : ℚ))) := by
  induction l with
  | nil => rfl
  | cons x xs ih =>
      have hx := h x (List.mem_cons_self x xs)
      obtain ⟨hb1, hb2⟩ := pyTrunc_pd_bounds x hx.1 hx.2
      rw [List.map_cons, parseAllQ, pdInt_parse _ hb1 hb2,
        ih (fun q hq => h q (List.mem_cons_of_mem x hq)), List.map_cons]


theorem pdStep_parts_none (v : PyVal) (hv : v ≠ PyVal.vNone) (h : pdParts v = none) :
    pdStep v = (PyVal.vNone, [Note.pdInvalidFormat v]) := by
  cases v with
  | vNone => exact absurd rfl hv
  | vInt n => simp [pdParts] at h
  | vFloat x => simp [pdParts] at h
  | vStr s => simp only [pdStep, h]

theorem pdStep_res_nil (v : PyVal) (qs : List ℚ) (hv : v ≠ PyVal.vNone)
    (h : pdParts v = some qs) (h2 : (pdScan qs).2 = []) :
    pdStep v = (PyVal.vNone, (pdScan qs).1) := by
  cases v with
  | vNone => exact absurd rfl hv
  | vInt n => simp only [pdStep, h, h2]
  | vFloat x => simp only [pdStep, h, h2]
  | vStr s => simp only [pdStep, h, h2]

theorem pdStep_res_one (v : PyVal) (qs : List ℚ) (q : ℚ) (hv : v ≠ PyVal.vNone)
    (h : pdParts v = some qs) (h2 : (pdScan qs).2 = [q]) :
    pdStep v = (PyVal.vInt (pyTrunc q), (pdScan qs).1) := by
  cases v with
  | vNone => exact absurd rfl hv
  | vInt n => simp only [pdStep, h, h2]
  | vFloat x => simp only [pdStep, h, h2]
  | vStr s => simp only [pdStep, h, h2]

theorem pdStep_res_many (v : PyVal) (qs : List ℚ) (q1 q2 : ℚ) (rest : List ℚ)
    (hv : v ≠ PyVal.vNone) (h : pdParts v = some qs)
    (h2 : (pdScan qs).2 = q1 :: q2 :: rest) :
    pdStep v = (PyVal.vStr (String.mk (joinChar '/'
      ((q1 :: q2 :: rest).map (fun q => intStr (pyTrunc q))))), (pdScan qs).1) := by
  cases v with
  | vNone => exact absurd rfl hv
  | vInt n => simp only [pdStep, h, h2]
  | vFloat x => simp only [pdStep, h, h2]
  | vStr s => simp only [pdStep, h, h2]

theorem pdParts_vInt (n : ℤ) : pdParts (PyVal.vInt n) = some [(n : ℚ)] := rfl

theorem pdParts_joined (l : List ℚ) (hlen : 2 ≤ l.length)
    (hb : ∀ q ∈ l, 50 ≤ q ∧ q ≤ 75) :
    pdParts (PyVal.vStr (String.mk (joinChar '/' (l.map (fun q => intStr (pyTrunc q)))))) =
      some (l.map (fun q => ((pyTrunc q : ℤ) : ℚ))) := by
  have hfacts : ∀ q ∈ l, intStr (pyTrunc q) ≠ [] ∧ '/' ∉ intStr (pyTrunc q) ∧
      (∀ c ∈ intStr (pyTrunc q), c.isWhitespace = false) := by
    intro q hq
    obtain ⟨hb1, hb2⟩ := pyTrunc_pd_bounds q (hb q hq).1 (hb q hq).2
    obtain ⟨f1, f2, f3, -⟩ := pdIntFacts (pyTrunc q) (Finset.mem_Icc.2 ⟨hb1, hb2⟩)
    exact ⟨f1, f2, f3⟩
  set parts := l.map (fun q => intStr (pyTrunc q)) with hparts
  have hdata : (String.mk (joinChar '/' parts)).data = joinChar '/' parts := rfl
  have hnws : ∀ c ∈ joinChar '/' parts, c.isWhitespace = false := by
    intro c hc
    rcases mem_joinChar '/' parts c hc with rfl | ⟨p, hp, hcp⟩
    · decide
    · obtain ⟨q, hq, rfl⟩ := List.mem_map.1 hp
      exact (hfacts q hq).2.2 c hcp
  have hstrip : stripChars (joinChar '/' parts) = joinChar '/' parts :=
    stripChars_eq_self _ hnws
  have hsepmem : '/' ∈ joinChar '/' parts := by
    rcases l with - | ⟨a, - | ⟨b, r⟩⟩
    · simp at hlen
    · simp at hlen
    · exact sep_mem_joinChar '/' _ _ _
  have hsplit : splitChar '/' (joinChar '/' parts) = parts := by
    refine splitChar_joinChar '/' parts ?_ ?_
    · rcases l with - | ⟨a, r⟩
      · simp at hlen
      · simp [hparts]
    · intro p hp
      obtain ⟨q, hq, rfl⟩ := List.mem_map.1 hp
      exact (hfacts q hq).2.1
  have hmapstrip : parts.map stripChars = parts := by
    rw [List.map_congr_left (fun p hp => ?_), List.map_id]
    obtain ⟨q, hq, rfl⟩ := List.mem_map.1 hp
    exact stripChars_eq_self _ fun c hc => (hfacts q hq).2.2 c hc
  have hfilter : parts.filter (fun p => !p.isEmpty) = parts := by
    rw [List.filter_eq_self]
    intro p hp
    obtain ⟨q, hq, rfl⟩ := List.mem_map.1 hp
    simp [List.isEmpty_iff, (hfacts q hq).1]
  show pdParts _ = _
  rw [pdParts]
  simp only [hdata, hstrip]
  rw [if_pos hsepmem, hsplit, hmapstrip, hfilter, hparts]
  exact parseAllQ_map_intStr l hb


theorem pdStep_idem_aux (v : PyVal) (hv : v ≠ PyVal.vNone) :
    (pdStep (pdStep v).1).1 = (pdStep v).1 := by
  cases hpp : pdParts v with
  | none =>
      rw [pdStep_parts_none v hv hpp]
      rfl
  | some qs =>
      rcases hsc : (pdScan qs).2 with - | ⟨q1, - | ⟨q2, rest⟩⟩
      · rw [pdStep_res_nil v qs hv hpp hsc]
        rfl
      · -- one survivor
        have hb := pdScan_valid_bounds qs q1 (by rw [hsc]; exact List.mem_cons_self q1 [])
        obtain ⟨hk1, hk2⟩ := pyTrunc_pd_bounds q1 hb.1 hb.2
        rw [pdStep_res_one v qs q1 hv hpp hsc]
        have hone : pdScan [((pyTrunc q1 : ℤ) : ℚ)] = ([], [((pyTrunc q1 : ℤ) : ℚ)]) := by
          refine pdScan_all_valid _ ?_
          intro q hq
          rcases List.mem_singleton.1 hq with rfl
          constructor
          · exact_mod_cast hk1
          · exact_mod_cast hk2
        have := pdStep_res_one (PyVal.vInt (pyTrunc q1)) [((pyTrunc q1 : ℤ) : ℚ)]
          ((pyTrunc q1 : ℤ) : ℚ) (by simp) (pdParts_vInt (pyTrunc q1)) (by rw [hone])
        rw [this, pyTrunc_intCast]
      · -- two or more survivors
        set l : List ℚ := q1 :: q2 :: rest with hl
        have hlen : 2 ≤ l.length := by simp [hl]
        have hb : ∀ q ∈ l, 50 ≤ q ∧ q ≤ 75 := by
          intro q hq
          exact pdScan_valid_bounds qs q (by rw [hsc]; exact hq)
        rw [pdStep_res_many v qs q1 q2 rest hv hpp hsc]
        have hparts2 := pdParts_joined l hlen hb
        set ks : List ℚ := l.map (fun q => ((pyTrunc q : ℤ) : ℚ)) with hks
        have hbks : ∀ q ∈ ks, 50 ≤ q ∧ q ≤ 75 := by
          intro q hq
          obtain ⟨x, hx, rfl⟩ := List.mem_map.1 hq
          obtain ⟨h1, h2⟩ := pyTrunc_pd_bounds x (hb x hx).1 (hb x hx).2
          exact ⟨by exact_mod_cast h1, by exact_mod_cast h2⟩
        have hscan2 : pdScan ks = ([], ks) := pdScan_all_valid ks hbks
        rcases hks2 : ks with - | ⟨k1, - | ⟨k2, krest⟩⟩
        · simp [hks, hl] at hks2
        · simp [hks, hl] at hks2
        · have hres := pdStep_res_many
            (PyVal.vStr (String.mk (joinChar '/' (l.map (fun q => intStr (pyTrunc q))))))
            ks k1 k2 krest (by simp) hparts2
            (by rw [hscan2, hks2])
          rw [hres]
          have hmaps : (k1 :: k2 :: krest).map (fun q => intStr (pyTrunc q)) =
              l.map (fun q => intStr (pyTrunc q)) := by
            rw [← hks2, hks, List.map_map]
            refine List.map_congr_left ?_
            intro x hx
            simp [Function.comp, pyTrunc_intCast]
          rw [hmaps]

theorem pdStep_idem (v : PyVal) : (pdStep (pdStep v).1).1 = (pdStep v).1 := by
  cases hv0 : v with
  | vNone => rfl
  | vInt n => exact pdStep_idem_aux (PyVal.vInt n) (by simp)
  | vFloat x => exact pdStep_idem_aux (PyVal.vFloat x) (by simp)
  | vStr s => exact pdStep_idem_aux (PyVal.vStr s) (by simp)


theorem digit_char_facts (r : ℕ) (h : r < 10) :
    (Char.ofNat (48 + r)).isDigit = true ∧
    (Char.ofNat (48 + r)).isWhitespace = false ∧
    Char.ofNat (48 + r) ≠ '-' ∧
    Char.ofNat (48 + r) ≠ '/' ∧
    (Char.ofNat (48 + r)).toNat = 48 + r := by
  interval_cases r <;> exact ⟨by decide, by decide, by decide, by decide, by decide⟩

theorem digit_val_bounds (c : Char) (hc : c.isDigit = true) :
    48 ≤ c.toNat ∧ c.toNat ≤ 57 := by
  simp [Char.isDigit] at hc
  exact hc

theorem foldl_digits_lt (p : List Char) (acc : ℕ)
    (h : ∀ c ∈ p, c.isDigit = true) :
    p.foldl (fun a c => 10 * a + (c.toNat - 48)) acc < (acc + 1) * 10 ^ p.length := by
  induction p generalizing acc with
  | nil => simp
  | cons c t ih =>
      have hc := digit_val_bounds c (h c (List.mem_cons_self c t))
      have hv : c.toNat - 48 ≤ 9 := by omega
      have := ih (10 * acc + (c.toNat - 48)) (fun x hx => h x (List.mem_cons_of_mem c hx))
      calc (c :: t).foldl (fun a c => 10 * a + (c.toNat - 48)) acc
          = t.foldl (fun a c => 10 * a + (c.toNat - 48)) (10 * acc + (c.toNat - 48)) := rfl
        _ < (10 * acc + (c.toNat - 48) + 1) * 10 ^ t.length := this
        _ ≤ (acc + 1) * 10 ^ (c :: t).length := by
            rw [List.length_cons, pow_succ]
            nlinarith [pow_pos (by norm_num : (0:ℕ) < 10) t.length]

theorem digitsToNat_lt (p : List Char) (h : ∀ c ∈ p, c.isDigit = true) :
    digitsToNat p < 10 ^ p.length := by
  have := foldl_digits_lt p 0 h
  simpa [digitsToNat] using this

theorem numField_some (p : List Char) (maxLen n : ℕ) (h : numField p maxLen = some n) :
    p ≠ [] ∧ p.length ≤ maxLen ∧ (∀ c ∈ p, c.isDigit = true) ∧ n = digitsToNat p ∧
      n < 10 ^ maxLen := by
  rw [numField] at h
  by_cases hc : p ≠ [] ∧ p.length ≤ maxLen ∧ p.all Char.isDigit
  · rw [if_pos hc] at h
    obtain ⟨h1, h2, h3⟩ := hc
    have hall : ∀ c ∈ p, c.isDigit = true := fun c hcm => List.all_eq_true.1 h3 c hcm
    have hn : n = digitsToNat p := by simpa using h.symm
    refine ⟨h1, h2, hall, hn, ?_⟩
    calc n = digitsToNat p := hn
      _ < 10 ^ p.length := digitsToNat_lt p hall
      _ ≤ 10 ^ maxLen := Nat.pow_le_pow_right (by norm_num) h2
  · rw [if_neg hc] at h
    simp at h

theorem pad4_facts (y : ℕ) :
    (pad4 y).length = 4 ∧ pad4 y ≠ [] ∧ (∀ c ∈ pad4 y, c.isDigit = true) ∧
    (∀ c ∈ pad4 y, c.isWhitespace = false) ∧ '-' ∉ pad4 y ∧ '/' ∉ pad4 y := by
  have f1 := digit_char_facts (y / 1000 % 10) (Nat.mod_lt _ (by norm_num))
  have f2 := digit_char_facts (y / 100 % 10) (Nat.mod_lt _ (by norm_num))
  have f3 := digit_char_facts (y / 10 % 10) (Nat.mod_lt _ (by norm_num))
  have f4 := digit_char_facts (y % 10) (Nat.mod_lt _ (by norm_num))
  refine ⟨rfl, by simp [pad4], ?_, ?_, ?_, ?_⟩
  · intro c hc
    simp only [pad4, List.mem_cons, List.mem_singleton, List.not_mem_nil, or_false] at hc
    rcases hc with rfl | rfl | rfl | rfl
    exacts [f1.1, f2.1, f3.1, f4.1]
  · intro c hc
    simp only [pad4, List.mem_cons, List.mem_singleton, List.not_mem_nil, or_false] at hc
    rcases hc with rfl | rfl | rfl | rfl
    exacts [f1.2.1, f2.2.1, f3.2.1, f4.2.1]
  · intro hc
    simp only [pad4, List.mem_cons, List.mem_singleton, List.not_mem_nil, or_false] at hc
    rcases hc with h | h | h | h
    exacts [f1.2.2.1 h.symm, f2.2.2.1 h.symm, f3.2.2.1 h.symm, f4.2.2.1 h.symm]
  · intro hc
    simp only [pad4, List.mem_cons, List.mem_singleton, List.not_mem_nil, or_false] at hc
    rcases hc with h | h | h | h
    exacts [f1.2.2.2.1 h.symm, f2.2.2.2.1 h.symm, f3.2.2.2.1 h.symm, f4.2.2.2.1 h.symm]

theorem pad2_facts (m : ℕ) :
    (pad2 m).length = 2 ∧ pad2 m ≠ [] ∧ (∀ c ∈ pad2 m, c.isDigit = true) ∧
    (∀ c ∈ pad2 m, c.isWhitespace = false) ∧ '-' ∉ pad2 m ∧ '/' ∉ pad2 m := by
  have f1 := digit_char_facts (m / 10 % 10) (Nat.mod_lt _ (by norm_num))
  have f2 := digit_char_facts (m % 10) (Nat.mod_lt _ (by norm_num))
  refine ⟨rfl, by simp [pad2], ?_, ?_, ?_, ?_⟩
  · intro c hc
    simp only [pad2, List.mem_cons, List.mem_singleton, List.not_mem_nil, or_false] at hc
    rcases hc with rfl | rfl
    exacts [f1.1, f2.1]
  · intro c hc
    simp only [pad2, List.mem_cons, List.mem_singleton, List.not_mem_nil, or_false] at hc
    rcases hc with rfl | rfl
    exacts [f1.2.1, f2.2.1]
  · intro hc
    simp only [pad2, List.mem_cons, List.mem_singleton, List.not_mem_nil, or_false] at hc
    rcases hc with h | h
    exacts [f1.2.2.1 h.symm, f2.2.2.1 h.symm]
  · intro hc
    simp only [pad2, List.mem_cons, List.mem_singleton, List.not_mem_nil, or_false] at hc
    rcases hc with h | h
    exacts [f1.2.2.2.1 h.symm, f2.2.2.2.1 h.symm]

theorem digitsToNat_pad4 (y : ℕ) (h : y < 10000) : digitsToNat (pad4 y) = y := by
  have f1 := (digit_char_facts (y / 1000 % 10) (Nat.mod_lt _ (by norm_num))).2.2.2.2
  have f2 := (digit_char_facts (y / 100 % 10) (Nat.mod_lt _ (by norm_num))).2.2.2.2
  have f3 := (digit_char_facts (y / 10 % 10) (Nat.mod_lt _ (by norm_num))).2.2.2.2
  have f4 := (digit_char_facts (y % 10) (Nat.mod_lt _ (by norm_num))).2.2.2.2
  simp only [digitsToNat, pad4, List.foldl_cons, List.foldl_nil, f1, f2, f3, f4]
  omega

theorem digitsToNat_pad2 (m : ℕ) (h : m < 100) : digitsToNat (pad2 m) = m := by
  have f1 := (digit_char_facts (m / 10 % 10) (Nat.mod_lt _ (by norm_num))).2.2.2.2
  have f2 := (digit_char_facts (m % 10) (Nat.mod_lt _ (by norm_num))).2.2.2.2
  simp only [digitsToNat, pad2, List.foldl_cons, List.foldl_nil, f1, f2]
  omega


theorem numField_pad4 (y : ℕ) (h : y < 10000) : numField (pad4 y) 4 = some y := by
  obtain ⟨hlen, hne, hdig, -, -, -⟩ := pad4_facts y
  rw [numField, if_pos ⟨hne, by rw [hlen], List.all_eq_true.2 hdig⟩, digitsToNat_pad4 y h]

theorem numField_pad4_len2 (y : ℕ) : numField (pad4 y) 2 = none := by
  obtain ⟨hlen, -, -, -, -, -⟩ := pad4_facts y
  rw [numField, if_neg]
  rintro ⟨-, hl, -⟩
  rw [hlen] at hl
  omega

theorem numField_pad2 (m : ℕ) (h : m < 100) : numField (pad2 m) 2 = some m := by
  obtain ⟨hlen, hne, hdig, -, -, -⟩ := pad2_facts m
  rw [numField, if_pos ⟨hne, by rw [hlen], List.all_eq_true.2 hdig⟩, digitsToNat_pad2 m h]

theorem numFieldExact_some (p : List Char) (len n : ℕ) (h : numFieldExact p len = some n) :
    p ≠ [] ∧ p.length = len ∧ (∀ c ∈ p, c.isDigit = true) ∧ n = digitsToNat p ∧
      n < 10 ^ len := by
  rw [numFieldExact] at h
  by_cases hc : p ≠ [] ∧ p.length = len ∧ p.all Char.isDigit
  · rw [if_pos hc] at h
    obtain ⟨h1, h2, h3⟩ := hc
    have hall : ∀ c ∈ p, c.isDigit = true := fun c hcm => List.all_eq_true.1 h3 c hcm
    have hn : n = digitsToNat p := by simpa using h.symm
    refine ⟨h1, h2, hall, hn, ?_⟩
    calc n = digitsToNat p := hn
      _ < 10 ^ p.length := digitsToNat_lt p hall
      _ = 10 ^ len := by rw [h2]
  · rw [if_neg hc] at h
    simp at h

theorem numFieldExact_pad4 (y : ℕ) (h : y < 10000) : numFieldExact (pad4 y) 4 = some y := by
  obtain ⟨hlen, hne, hdig, -, -, -⟩ := pad4_facts y
  rw [numFieldExact, if_pos ⟨hne, hlen, List.all_eq_true.2 hdig⟩, digitsToNat_pad4 y h]

theorem numFieldExact_pad2_len4 (m : ℕ) : numFieldExact (pad2 m) 4 = none := by
  obtain ⟨hlen, -, -, -, -, -⟩ := pad2_facts m
  rw [numFieldExact, if_neg]
  rintro ⟨-, hl, -⟩
  rw [hlen] at hl
  omega

theorem yearStr_mem (y : ℕ) (c : Char) (hc : c ∈ yearStr y) :
    ∃ r, r < 10 ∧ c = Char.ofNat (48 + r) := by
  rw [yearStr] at hc
  by_cases h1 : y < 10
  · rw [if_pos h1] at hc
    simp only [List.mem_singleton] at hc
    exact ⟨y % 10, Nat.mod_lt _ (by norm_num), hc⟩
  · rw [if_neg h1] at hc
    by_cases h2 : y < 100
    · rw [if_pos h2] at hc
      simp only [List.mem_cons, List.mem_singleton, List.not_mem_nil, or_false] at hc
      rcases hc with rfl | rfl
      exacts [⟨y / 10 % 10, Nat.mod_lt _ (by norm_num), rfl⟩,
        ⟨y % 10, Nat.mod_lt _ (by norm_num), rfl⟩]
    · rw [if_neg h2] at hc
      by_cases h3 : y < 1000
      · rw [if_pos h3] at hc
        simp only [List.mem_cons, List.mem_singleton, List.not_mem_nil, or_false] at hc
        rcases hc with rfl | rfl | rfl
        exacts [⟨y / 100 % 10, Nat.mod_lt _ (by norm_num), rfl⟩,
          ⟨y / 10 % 10, Nat.mod_lt _ (by norm_num), rfl⟩,
          ⟨y % 10, Nat.mod_lt _ (by norm_num), rfl⟩]
      · rw [if_neg h3] at hc
        simp only [pad4, List.mem_cons, List.mem_singleton, List.not_mem_nil,
          or_false] at hc
        rcases hc with rfl | rfl | rfl | rfl
        exacts [⟨y / 1000 % 10, Nat.mod_lt _ (by norm_num), rfl⟩,
          ⟨y / 100 % 10, Nat.mod_lt _ (by norm_num), rfl⟩,
          ⟨y / 10 % 10, Nat.mod_lt _ (by norm_num), rfl⟩,
          ⟨y % 10, Nat.mod_lt _ (by norm_num), rfl⟩]

theorem yearStr_facts (y : ℕ) :
    yearStr y ≠ [] ∧ (∀ c ∈ yearStr y, c.isDigit = true) ∧
    (∀ c ∈ yearStr y, c.isWhitespace = false) ∧ '-' ∉ yearStr y ∧ '/' ∉ yearStr y := by
  refine ⟨?_, ?_, ?_, ?_, ?_⟩
  · rw [yearStr]
    split
    · simp
    split
    · simp
    split
    · simp
    · simp [pad4]
  · intro c hc
    obtain ⟨r, hr, rfl⟩ := yearStr_mem y c hc
    exact (digit_char_facts r hr).1
  · intro c hc
    obtain ⟨r, hr, rfl⟩ := yearStr_mem y c hc
    exact (digit_char_facts r hr).2.1
  · intro hc
    obtain ⟨r, hr, he⟩ := yearStr_mem y '-' hc
    exact (digit_char_facts r hr).2.2.1 he.symm
  · intro hc
    obtain ⟨r, hr, he⟩ := yearStr_mem y '/' hc
    exact (digit_char_facts r hr).2.2.2.1 he.symm

theorem yearStr_length_ge3 (y : ℕ) (h : 100 ≤ y) : 3 ≤ (yearStr y).length := by
  rw [yearStr, if_neg (by omega), if_neg (by omega)]
  split
  · simp
  · simp [pad4]

theorem yearStr_length_3 (y : ℕ) (h1 : 100 ≤ y) (h2 : y < 1000) :
    (yearStr y).length = 3 := by
  rw [yearStr, if_neg (by omega), if_neg (by omega), if_pos h2]
  rfl

theorem yearStr_eq_pad4 (y : ℕ) (h : 1000 ≤ y) : yearStr y = pad4 y := by
  rw [yearStr, if_neg (by omega), if_neg (by omega), if_neg (by omega)]

theorem numField_yearStr_len2 (y : ℕ) (h : 100 ≤ y) : numField (yearStr y) 2 = none := by
  have h3 := yearStr_length_ge3 y h
  rw [numField, if_neg]
  rintro ⟨-, hl, -⟩
  omega

theorem numFieldExact_yearStr_len4 (y : ℕ) (h1 : 100 ≤ y) (h2 : y < 1000) :
    numFieldExact (yearStr y) 4 = none := by
  have h3 := yearStr_length_3 y h1 h2
  rw [numFieldExact, if_neg]
  rintro ⟨-, hl, -⟩
  omega

theorem renderISO_as_join (y m d : ℕ) :
    renderISO y m d = joinChar '-' [yearStr y, pad2 m, pad2 d] := by
  show (yearStr y ++ ('-' :: pad2 m)) ++ ('-' :: pad2 d) =
    joinChar '-' [yearStr y, pad2 m, pad2 d]
  rw [List.append_assoc]
  rfl

theorem renderISO_no_slash (y m d : ℕ) : '/' ∉ renderISO y m d := by
  intro hc
  rw [renderISO_as_join] at hc
  rcases mem_joinChar '-' [yearStr y, pad2 m, pad2 d] '/' hc with h | ⟨p, hp, hcp⟩
  · exact absurd h (by decide)
  · simp only [List.mem_cons, List.mem_singleton, List.not_mem_nil, or_false] at hp
    rcases hp with rfl | rfl | rfl
    exacts [(yearStr_facts y).2.2.2.2 hcp, (pad2_facts m).2.2.2.2.2 hcp,
      (pad2_facts d).2.2.2.2.2 hcp]

theorem renderISO_no_ws (y m d : ℕ) : ∀ c ∈ renderISO y m d, c.isWhitespace = false := by
  intro c hc
  rw [renderISO_as_join] at hc
  rcases mem_joinChar '-' [yearStr y, pad2 m, pad2 d] c hc with rfl | ⟨p, hp, hcp⟩
  · decide
  · simp only [List.mem_cons, List.mem_singleton, List.not_mem_nil, or_false] at hp
    rcases hp with rfl | rfl | rfl
    exacts [(yearStr_facts y).2.2.1 c hcp, (pad2_facts m).2.2.2.1 c hcp,
      (pad2_facts d).2.2.2.1 c hcp]

theorem splitChar_renderISO_dash (y m d : ℕ) :
    splitChar '-' (renderISO y m d) = [yearStr y, pad2 m, pad2 d] := by
  rw [renderISO_as_join]
  refine splitChar_joinChar '-' _ (by simp) ?_
  intro p hp
  simp only [List.mem_cons, List.mem_singleton, List.not_mem_nil, or_false] at hp
  rcases hp with rfl | rfl | rfl
  exacts [(yearStr_facts y).2.2.2.1, (pad2_facts m).2.2.2.2.1, (pad2_facts d).2.2.2.2.1]

theorem splitChar_renderISO_slash (y m d : ℕ) :
    splitChar '/' (renderISO y m d) = [renderISO y m d] := by
  have := splitCharAux_no_sep '/' (renderISO y m d) [] (renderISO_no_slash y m d)
  simpa [splitChar] using this

theorem parseFormat_render_slash (ord : DOrder) (sy : Bool) (y m d : ℕ) :
    parseFormat ⟨'/', ord, sy⟩ (renderISO y m d) = none := by
  rw [parseFormat, splitChar_renderISO_slash]

theorem parseFormat_render_mdy (sy : Bool) (y m d : ℕ) (hy : 100 ≤ y) :
    parseFormat ⟨'-', DOrder.mdy, sy⟩ (renderISO y m d) = none := by
  rw [parseFormat, splitChar_renderISO_dash]
  cases sy with
  | false =>
      rcases hw : numField (yearStr y) 2 with - | w <;>
      rcases hv : numField (pad2 m) 2 with - | v <;>
        simp [parseFields, numFieldExact_pad2_len4, hw, hv]
  | true =>
      rcases hz : numFieldExact (pad2 d) 2 with - | z <;>
      rcases hv : numField (pad2 m) 2 with - | v <;>
        simp [parseFields, hz, hv, numField_yearStr_len2 y hy]

theorem parseFormat_render_dmy (sy : Bool) (y m d : ℕ) (hy : 100 ≤ y) :
    parseFormat ⟨'-', DOrder.dmy, sy⟩ (renderISO y m d) = none := by
  rw [parseFormat, splitChar_renderISO_dash]
  cases sy with
  | false =>
      rcases hw : numField (pad2 m) 2 with - | w <;>
      rcases hv : numField (yearStr y) 2 with - | v <;>
        simp [parseFields, numFieldExact_pad2_len4, hw, hv]
  | true =>
      rcases hz : numFieldExact (pad2 d) 2 with - | z <;>
      rcases hw : numField (pad2 m) 2 with - | w <;>
        simp [parseFields, hz, hw, numField_yearStr_len2 y hy]

theorem daysInMonth_le (y m : ℕ) : daysInMonth y m ≤ 31 := by
  rw [daysInMonth]
  split
  · split <;> omega
  · split <;> omega

theorem parseFormat_render_ymd (y m d : ℕ) (hy1 : 1000 ≤ y) (hy2 : y < 10000)
    (hm1 : 1 ≤ m) (hm2 : m ≤ 12) (hd1 : 1 ≤ d) (hd2 : d ≤ daysInMonth y m) :
    parseFormat ⟨'-', DOrder.ymd, false⟩ (renderISO y m d) = some (y, m, d) := by
  have hdm : d < 100 := by
    have := daysInMonth_le y m
    omega
  have hy0 : 1 ≤ y := by omega
  have h4 : numFieldExact (yearStr y) 4 = some y := by
    rw [yearStr_eq_pad4 y hy1]
    exact numFieldExact_pad4 y hy2
  have hm' := numField_pad2 m (by omega : m < 100)
  have hd' := numField_pad2 d hdm
  rw [parseFormat, splitChar_renderISO_dash]
  simp [parseFields, h4, hm', hd', hy0, hm1, hm2, hd1, hd2]

theorem parseFormat_render_ymd_none (y m d : ℕ) (h1 : 100 ≤ y) (h2 : y < 1000) :
    parseFormat ⟨'-', DOrder.ymd, false⟩ (renderISO y m d) = none := by
  rw [parseFormat, splitChar_renderISO_dash]
  rcases hw : numField (pad2 m) 2 with - | w <;>
  rcases hv : numField (pad2 d) 2 with - | v <;>
    simp [parseFields, numFieldExact_yearStr_len4 y h1 h2, hw, hv]

theorem dateParseStr_render (y m d : ℕ) (hy1 : 1000 ≤ y) (hy2 : y < 10000)
    (hm1 : 1 ≤ m) (hm2 : m ≤ 12) (hd1 : 1 ≤ d) (hd2 : d ≤ daysInMonth y m) :
    dateParseStr (renderISO y m d) = some (y, m, d) := by
  have h100 : (100 : ℕ) ≤ y := by omega
  rw [dateParseStr, stripChars_eq_self _ (renderISO_no_ws y m d), date_formats]
  rw [List.findSome?_cons, parseFormat_render_slash,
    List.findSome?_cons, parseFormat_render_mdy false y m d h100,
    List.findSome?_cons, parseFormat_render_slash,
    List.findSome?_cons, parseFormat_render_dmy false y m d h100,
    List.findSome?_cons, parseFormat_render_slash,
    List.findSome?_cons, parseFormat_render_ymd y m d hy1 hy2 hm1 hm2 hd1 hd2]

theorem dateParseStr_render_none (y m d : ℕ) (h1 : 100 ≤ y) (h2 : y < 1000) :
    dateParseStr (renderISO y m d) = none := by
  rw [dateParseStr, stripChars_eq_self _ (renderISO_no_ws y m d), date_formats]
  rw [List.findSome?_cons, parseFormat_render_slash,
    List.findSome?_cons, parseFormat_render_mdy false y m d h1,
    List.findSome?_cons, parseFormat_render_slash,
    List.findSome?_cons, parseFormat_render_dmy false y m d h1,
    List.findSome?_cons, parseFormat_render_slash,
    List.findSome?_cons, parseFormat_render_ymd_none y m d h1 h2,
    List.findSome?_cons, parseFormat_render_slash,
    List.findSome?_cons, parseFormat_render_mdy true y m d h1,
    List.findSome?_cons, parseFormat_render_slash,
    List.findSome?_cons, parseFormat_render_dmy true y m d h1]
  rfl

theorem expandYear2_lt (yy : ℕ) (h : yy < 100) : expandYear2 yy < 10000 := by
  rw [expandYear2]
  split <;> omega

theorem parseFields_bounds (yp mp dp : List Char) (sy : Bool) (y m d : ℕ)
    (h : parseFields yp mp dp sy = some (y, m, d)) :
    1 ≤ y ∧ y < 10000 ∧ 1 ≤ m ∧ m ≤ 12 ∧ 1 ≤ d ∧ d ≤ daysInMonth y m := by
  rw [parseFields] at h
  rcases hy : numFieldExact yp (if sy then 2 else 4) with - | yraw <;> rw [hy] at h
  · simp at h
  rcases hm' : numField mp 2 with - | m' <;> rw [hm'] at h
  · simp at h
  rcases hd' : numField dp 2 with - | d' <;> rw [hd'] at h
  · simp at h
  simp only [] at h
  by_cases hcond : 1 ≤ (if sy then expandYear2 yraw else yraw) ∧ 1 ≤ m' ∧ m' ≤ 12 ∧
      1 ≤ d' ∧ d' ≤ daysInMonth (if sy then expandYear2 yraw else yraw) m'
  · rw [if_pos hcond] at h
    obtain ⟨hyy, hmm, hdd⟩ : (if sy then expandYear2 yraw else yraw) = y ∧ m' = m ∧ d' = d := by
      simpa using h
    subst hyy
    subst hmm
    subst hdd
    obtain ⟨-, -, -, hraw, hlt⟩ := numFieldExact_some yp (if sy then 2 else 4) yraw hy
    refine ⟨hcond.1, ?_, hcond.2.1, hcond.2.2.1, hcond.2.2.2.1, hcond.2.2.2.2⟩
    cases sy with
    | false =>
        simp only [if_false, Bool.false_eq_true] at hlt ⊢
        calc yraw < 10 ^ 4 := by simpa using hlt
          _ = 10000 := by norm_num
    | true =>
        simp only [if_true] at hlt ⊢
        refine expandYear2_lt yraw ?_
        calc yraw < 10 ^ 2 := by simpa using hlt
          _ = 100 := by norm_num
  · rw [if_neg hcond] at h
    simp at h

theorem parseFormat_some_bounds (f : DFormat) (l : List Char) (y m d : ℕ)
    (h : parseFormat f l = some (y, m, d)) :
    1 ≤ y ∧ y < 10000 ∧ 1 ≤ m ∧ m ≤ 12 ∧ 1 ≤ d ∧ d ≤ daysInMonth y m := by
  rw [parseFormat] at h
  rcases hs : splitChar f.sep l with - | ⟨p1, - | ⟨p2, - | ⟨p3, - | ⟨p4, rest⟩⟩⟩⟩ <;>
    rw [hs] at h
  · simp at h
  · simp at h
  · simp at h
  · cases ho : f.order <;> rw [ho] at h
    · exact parseFields_bounds _ _ _ _ _ _ _ h
    · exact parseFields_bounds _ _ _ _ _ _ _ h
    · exact parseFields_bounds _ _ _ _ _ _ _ h
  · simp at h

theorem dateParseStr_bounds (l : List Char) (y m d : ℕ)
    (h : dateParseStr l = some (y, m, d)) :
    1 ≤ y ∧ y < 10000 ∧ 1 ≤ m ∧ m ≤ 12 ∧ 1 ≤ d ∧ d ≤ daysInMonth y m := by
  rw [dateParseStr] at h
  obtain ⟨f, -, hf⟩ := List.exists_of_findSome?_eq_some h
  exact parseFormat_some_bounds f _ y m d hf


theorem dateStep_parse_none (v : PyVal) (hv : v ≠ PyVal.vNone) (h : dateParse v = none) :
    dateStep v = (v, [Note.dateUnparsed v]) := by
  cases v with
  | vNone => exact absurd rfl hv
  | vInt n => simp only [dateStep, h]
  | vFloat x => simp only [dateStep, h]
  | vStr s => simp only [dateStep, h]

theorem dateStep_parse_some (v : PyVal) (y m d : ℕ) (hv : v ≠ PyVal.vNone)
    (h : dateParse v = some (y, m, d)) :
    dateStep v = (PyVal.vStr (String.mk (renderISO y m d)), []) := by
  cases v with
  | vNone => exact absurd rfl hv
  | vInt n => simp only [dateStep, h]
  | vFloat x => simp only [dateStep, h]
  | vStr s => simp only [dateStep, h]

theorem dateStep_idem_of (v : PyVal)
    (hv100 : ∀ y m d, dateParse v = some (y, m, d) → 100 ≤ y) :
    (dateStep (dateStep v).1).1 = (dateStep v).1 := by
  cases v with
  | vNone => rfl
  | vInt n =>
      rw [dateStep_parse_none (PyVal.vInt n) (by simp) rfl]
      rw [dateStep_parse_none (PyVal.vInt n) (by simp) rfl]
  | vFloat x =>
      rw [dateStep_parse_none (PyVal.vFloat x) (by simp) rfl]
      rw [dateStep_parse_none (PyVal.vFloat x) (by simp) rfl]
  | vStr s =>
      cases hp : dateParseStr s.data with
      | none =>
          have hds := dateStep_parse_none (PyVal.vStr s) (by simp) (by simp [dateParse, hp])
          rw [hds, hds]
      | some t =>
          rcases t with ⟨y, m, d⟩
          obtain ⟨hy1, hy2, hm1, hm2, hd1, hd2⟩ := dateParseStr_bounds s.data y m d hp
          have h100 : 100 ≤ y := hv100 y m d (by simp [dateParse, hp])
          have hds := dateStep_parse_some (PyVal.vStr s) y m d (by simp)
            (by simp [dateParse, hp])
          rw [hds]
          by_cases hky : 1000 ≤ y
          · have hp2 : dateParse (PyVal.vStr (String.mk (renderISO y m d))) =
                some (y, m, d) := by
              show dateParseStr (String.mk (renderISO y m d)).data = some (y, m, d)
              show dateParseStr (renderISO y m d) = some (y, m, d)
              exact dateParseStr_render y m d hky hy2 hm1 hm2 hd1 hd2
            rw [dateStep_parse_some _ y m d (by simp) hp2]
          · have hp2 : dateParse (PyVal.vStr (String.mk (renderISO y m d))) = none := by
              show dateParseStr (String.mk (renderISO y m d)).data = none
              show dateParseStr (renderISO y m d) = none
              exact dateParseStr_render_none y m d h100 (by omega)
            rw [dateStep_parse_none _ (by simp) hp2]


theorem processEye_idem (ed : Option EyeData) (eye : String) :
    (processEye (processEye ed eye).1 eye).1 = (processEye ed eye).1 := by
  cases ed with
  | none => rfl
  | some e =>
      simp only [processEye, Option.some.injEq, EyeData.mk.injEq]
      refine ⟨applyStore_idem _ _, applyStore_idem _ _, ?_, addStep_idem _ _⟩
      rw [applyStore_idem]
      exact axisStep_idem _ _ _

theorem vafp_none (r : PrescriptionResult) (h : r.data = none) :
    validate_and_fix_prescription r = r := by
  simp only [validate_and_fix_prescription, h]

theorem vafp_some (r : PrescriptionResult) (d : RecordData) (h : r.data = some d) :
    validate_and_fix_prescription r = { r with
      data := some { right_eye := (processEye d.right_eye "right_eye").1,
                     left_eye := (processEye d.left_eye "left_eye").1,
                     pupillary_distance := (pdStep d.pupillary_distance).1,
                     doctor_name := d.doctor_name,
                     date := (dateStep d.date).1 },
      validation_notes := some ((processEye d.right_eye "right_eye").2 ++
        (processEye d.left_eye "left_eye").2 ++ (pdStep d.pupillary_distance).2 ++
        (dateStep d.date).2),
      validation_status := some (if ((processEye d.right_eye "right_eye").2 ++
        (processEye d.left_eye "left_eye").2 ++ (pdStep d.pupillary_distance).2 ++
        (dateStep d.date).2).isEmpty then "passed" else "warnings") } := by
  simp only [validate_and_fix_prescription, h]


/-- C1 (counterexample): the candidate `0.252` lies in `[-20, 20]`, is
not a multiple of `0.25`, and is within `0.05` of the multiple `0.25`,
so the claim demands the rounded value `0.25` with one "rounded" note;
the code's grid test `abs((4v) % 1) < 0.01` instead treats `0.252` as
on-grid and returns it unchanged with no note. -/
theorem claim_C1_counterexample :
    validate_sphere_cylinder (PyVal.vFloat (63/250)) "right_eye sphere" =
      (some (63/250), some "valid", []) ∧
    (¬ ∃ k : ℤ, (63/250 : ℚ) = (k : ℚ) / 4) ∧
    pyAbs ((63/250 : ℚ) - 1/4) ≤ 1/20 := by
  refine ⟨?_, ?_, ?_⟩
  · rw [vsc_of_pyFloat (PyVal.vFloat (63/250)) (63/250) _ rfl, vscNum_eq]
    norm_num [pymod1, pyAbs]
  · rintro ⟨k, hk⟩
    have h4 : (k : ℚ) * 125 = 126 := by
      field_simp at hk
      linarith
    have h5 : k * 125 = 126 := by exact_mod_cast h4
    omega
  · norm_num [pyAbs]

/-- C1 (amended): for every sphere or cylinder candidate coercing to a
number `q`: if `|q| ≤ 20` and the code's grid test passes
(`abs((4q) % 1) < 0.01`, which holds for every exact multiple of `0.25`
and also for values up to `0.0025` above one), `q` is returned unchanged
with no note; if `|q| ≤ 20`, the grid test fails, and the distance to
the round-half-even `0.25` multiple is strictly less than `0.05`, that
multiple is returned with exactly one "rounded" note; if `|q| > 20` the
result is null with exactly one out-of-range note; if the grid test
fails and the distance is `≥ 0.05`, the result is null with exactly one
not-a-multiple note. -/
theorem claim_C1_amended (v : PyVal) (q : ℚ) (f : String) (h : pyFloat v = some q) :
    (¬(q < -20 ∨ q > 20) → pyAbs (pymod1 (q * 4)) < 1/100 →
        validate_sphere_cylinder v f = (some q, some "valid", [])) ∧
    (¬(q < -20 ∨ q > 20) → ¬(pyAbs (pymod1 (q * 4)) < 1/100) →
        pyAbs ((pyRound (q * 4) : ℚ) / 4 - q) < 1/20 →
        validate_sphere_cylinder v f =
          (some ((pyRound (q * 4) : ℚ) / 4), some "rounded",
            [Note.rounded f q ((pyRound (q * 4) : ℚ) / 4)])) ∧
    ((q < -20 ∨ q > 20) →
        validate_sphere_cylinder v f = (none, some "out_of_range", [Note.outOfRange f q])) ∧
    (¬(q < -20 ∨ q > 20) → ¬(pyAbs (pymod1 (q * 4)) < 1/100) →
        ¬(pyAbs ((pyRound (q * 4) : ℚ) / 4 - q) < 1/20) →
        validate_sphere_cylinder v f = (none, some "invalid", [Note.notMultiple f q])) := by
  rw [vsc_of_pyFloat v q f h, vscNum_eq]
  refine ⟨?_, ?_, ?_, ?_⟩
  · intro h1 h2
    rw [if_neg h1, if_pos h2]
  · intro h1 h2 h3
    rw [if_neg h1, if_neg h2, if_pos h3]
  · intro h1
    rw [if_pos h1]
  · intro h1 h2 h3
    rw [if_neg h1, if_neg h2, if_neg h3]

/-- C1 (witness): the on-grid in-range candidate `2.25` is returned
unchanged with no note. -/
theorem claim_C1_witness :
    validate_sphere_cylinder (PyVal.vFloat (9/4)) "right_eye sphere" =
      (some (9/4), some "valid", []) :=
  (claim_C1_amended (PyVal.vFloat (9/4)) (9/4) "right_eye sphere" rfl).1
    (by norm_num) (by norm_num [pymod1, pyAbs])


/-- C2 (counterexample): for the eye `{cylinder: "abc", axis: 90}` the
cylinder validates to null (invalid format), but the axis is kept as
`90` — the code only nulls the axis when the stored cylinder is a
numeric zero, not when it is null — contradicting the claim that a
null-validated cylinder forces the axis to null. -/
theorem claim_C2_counterexample :
    processEye (some ⟨PyVal.vNone, PyVal.vStr "abc", PyVal.vInt 90, PyVal.vNone⟩)
      "right_eye" =
      (some ⟨PyVal.vNone, PyVal.vNone, PyVal.vInt 90, PyVal.vNone⟩,
        [Note.invalidFormat "right_eye cylinder" (PyVal.vStr "abc")]) := by
  have hpabc : parseQchars "abc".data = none := by
    rw [parseQchars, (by decide : parseDec "abc".data = none)]
    rfl
  have hcyl := vsc_invalid_format (PyVal.vStr "abc") "right_eye cylinder" (by simp)
    (by simp [pyFloat, hpabc])
  have hax := axisStep_eq (PyVal.vInt 90) PyVal.vNone "right_eye" ((90 : ℤ) : ℚ) rfl
  rw [pyTrunc_intCast] at hax
  have hst : applyStore (PyVal.vStr "abc") (none, some "invalid_format",
      [Note.invalidFormat "right_eye cylinder" (PyVal.vStr "abc")]) = PyVal.vNone :=
    applyStore_store _ _ _ _ (by decide)
  simp only [processEye]
  rw [show ("right_eye" ++ " cylinder" : String) = "right_eye cylinder" from rfl, hcyl,
    hst, hax, if_neg (by simp [cylIsZero]), if_neg (by omega)]
  rfl

/-- C2 (amended): the axis is forced to null with the
"axis invalid (cylinder is 0)" note only when the stored cylinder value
is an `int` or `float` numerically equal to `0`; when the cylinder is
anything else — including null after a failed validation, or a
string-typed value — an axis candidate that coerces to a number is
validated on its own: truncated to an integer, nulled with a note if
outside `0..180`, and otherwise kept, regardless of the cylinder. -/
theorem claim_C2_amended (a cyl : PyVal) (eye : String) (q : ℚ)
    (h : pyFloat a = some q) :
    (cylIsZero cyl = true → axisStep a cyl eye = (PyVal.vNone, [Note.axisCylZero eye])) ∧
    (cylIsZero cyl = false →
      axisStep a cyl eye =
        if pyTrunc q < 0 ∨ pyTrunc q > 180 then
          (PyVal.vNone, [Note.axisOutOfRange eye (pyTrunc q)])
        else (PyVal.vInt (pyTrunc q), [])) := by
  rw [axisStep_eq a cyl eye q h]
  constructor
  · intro h1
    rw [if_pos h1]
  · intro h1
    rw [if_neg (by rw [h1]; simp)]

/-- C2 (witness): with a numerically zero cylinder the axis candidate
`90` is nulled with the cylinder-is-zero note. -/
theorem claim_C2_witness :
    axisStep (PyVal.vInt 90) (PyVal.vFloat 0) "right_eye" =
      (PyVal.vNone, [Note.axisCylZero "right_eye"]) := by
  have h := (claim_C2_amended (PyVal.vInt 90) (PyVal.vFloat 0) "right_eye"
    ((90 : ℤ) : ℚ) rfl).1 (by simp [cylIsZero])
  exact h


/-- C3 (counterexample): a sphere candidate given as the numeric string
`"2.25"` validates as already-valid, and the engine then skips the
write-back (`if status != "valid"`), so the output sphere is still the
string `"2.25"` — not a float and not null — contradicting the claimed
`ValidatedEye` typing `sphere : float | null`. -/
theorem claim_C3_counterexample :
    processEye (some ⟨PyVal.vStr "2.25", PyVal.vNone, PyVal.vNone, PyVal.vNone⟩)
      "right_eye" =
      (some ⟨PyVal.vStr "2.25", PyVal.vNone, PyVal.vNone, PyVal.vNone⟩, []) ∧
    (∀ q : ℚ, PyVal.vStr "2.25" ≠ PyVal.vFloat q) ∧ PyVal.vStr "2.25" ≠ PyVal.vNone := by
  refine ⟨?_, fun q => by simp, by simp⟩
  have hp : parseQchars "2.25".data = some (9/4) := by
    rw [parseQchars, (by decide : parseDec "2.25".data = some (false, 2, 25, 2)),
      Option.map_some']
    norm_num [ratOfDec]
  have hvsc : validate_sphere_cylinder (PyVal.vStr "2.25") ("right_eye" ++ " sphere") =
      (some (9/4), some "valid", []) := by
    rw [vsc_of_pyFloat (PyVal.vStr "2.25") (9/4) _ (by simp [pyFloat, hp]), vscNum_eq]
    norm_num [pymod1, pyAbs]
  have hsto : applyStore (PyVal.vStr "2.25") (some (9/4), some "valid", []) =
      PyVal.vStr "2.25" := applyStore_valid _ _
  simp only [processEye]
  rw [hvsc, hsto]
  rfl

/-- C3 (amended): after validation of a present eye, sphere and cylinder
are each either null or a value — possibly still in its original string
or int candidate form, not coerced to a float — whose numeric value lies
in `[-20, 20]` and passes the code's grid test; axis is null or an `int`
in `0..180`; add is either null or a value (possibly the kept original
candidate) whose numeric value lies in `[-20, 20]`. -/
theorem claim_C3_amended (ed : Option EyeData) (eye : String) (e : EyeData)
    (h : (processEye ed eye).1 = some e) :
    sphereCylInv e.sphere ∧ sphereCylInv e.cylinder ∧ axisInv e.axis ∧ addInv e.add := by
  cases ed with
  | none => simp [processEye] at h
  | some e0 =>
      simp only [processEye, Option.some.injEq] at h
      subst h
      exact ⟨applyStore_inv _ _, applyStore_inv _ _, axisStep_inv _ _ _, addStep_inv _ _⟩

/-- C3 (witness): the invariants hold for the output of validating an
all-null eye. -/
theorem claim_C3_witness :
    sphereCylInv PyVal.vNone ∧ sphereCylInv PyVal.vNone ∧ axisInv PyVal.vNone ∧
      addInv PyVal.vNone := by
  have h := claim_C3_amended
    (some ⟨PyVal.vNone, PyVal.vNone, PyVal.vNone, PyVal.vNone⟩) "right_eye"
    ⟨PyVal.vNone, PyVal.vNone, PyVal.vNone, PyVal.vNone⟩ rfl
  exact h

/-- C4: the engine always completes and returns a record: when the
`data` entry is absent or `None` it returns its input unchanged with no
notes emitted, and when data is present it returns a record carrying a
note list and the derived validation status — there is no other outcome
and no failure path. -/
theorem claim_C4 (r : PrescriptionResult) :
    (r.data = none → validate_and_fix_prescription r = r) ∧
    (∀ d, r.data = some d → ∃ d' notes,
      (validate_and_fix_prescription r).data = some d' ∧
      (validate_and_fix_prescription r).validation_notes = some notes ∧
      (validate_and_fix_prescription r).validation_status =
        some (if notes.isEmpty then "passed" else "warnings")) := by
  constructor
  · exact vafp_none r
  · intro d hd
    rw [vafp_some r d hd]
    exact ⟨_, _, rfl, rfl, rfl⟩

/-- C4 (witness): a record whose data is `None` passes through
unchanged. -/
theorem claim_C4_witness :
    validate_and_fix_prescription
      ⟨PyVal.vStr "reupload_required", PyVal.vStr "OCR text is empty", none,
        none, none, []⟩ =
      ⟨PyVal.vStr "reupload_required", PyVal.vStr "OCR text is empty", none,
        none, none, []⟩ :=
  (claim_C4 _).1 rfl


/-- C7: for every add candidate that passes numeric validation with
value `q`: a negative `q` is rejected outright (stored add becomes null,
with a should-be-positive note appended after the numeric notes); a
nonnegative `q` outside the typical band `0.75..3.50` keeps the record's
candidate — not nulled — and only adds a warning note; an in-band `q` is
stored as the float `q`. -/
theorem claim_C7 (v : PyVal) (eye : String) (q : ℚ) (st : Option String) (ns : List Note)
    (h : validate_sphere_cylinder v (eye ++ " add") = (some q, st, ns)) :
    (q < 0 → addStep v eye = (PyVal.vNone, ns ++ [Note.addNegative eye q])) ∧
    (0 ≤ q → (q < 3/4 ∨ q > 7/2) →
        addStep v eye = (v, ns ++ [Note.addOutsideTypical eye q]) ∧ v ≠ PyVal.vNone) ∧
    (3/4 ≤ q → q ≤ 7/2 → addStep v eye = (PyVal.vFloat q, ns)) := by
  have ha : v ≠ PyVal.vNone := by
    intro hv
    rw [hv, vsc_vNone] at h
    simp at h
  have hres := addStep_res_some v eye q st ns ha h
  refine ⟨?_, ?_, ?_⟩
  · intro hq
    rw [hres, if_pos hq]
  · intro hq hband
    rw [hres, if_neg (not_lt.2 hq), if_pos hband]
    exact ⟨rfl, ha⟩
  · intro hb1 hb2
    rw [hres, if_neg (not_lt.2 (by linarith)), if_neg (by push_neg; exact ⟨hb1, hb2⟩)]

/-- C7 (witness): a valid add candidate `4.0` (above the typical band)
is kept in the record with exactly one warning note. -/
theorem claim_C7_witness :
    addStep (PyVal.vFloat 4) "right_eye" =
      (PyVal.vFloat 4, [Note.addOutsideTypical "right_eye" 4]) := by
  have hv : validate_sphere_cylinder (PyVal.vFloat 4) ("right_eye" ++ " add") =
      (some 4, some "valid", []) :=
    vsc_float_valid 4 _ (by norm_num) (by norm_num) (by norm_num [pymod1, pyAbs])
  have h := (claim_C7 (PyVal.vFloat 4) "right_eye" 4 (some "valid") [] hv).2.1
    (by norm_num) (Or.inr (by norm_num))
  exact h.1

/-- C9 (amended): running `validate_and_fix_prescription` on the record
it previously produced leaves the eye fields, the pupillary distance
and the doctor name unchanged — no such field is re-corrected — and a
record with absent data passes through unchanged; the re-run also
leaves the date unchanged whenever the original date candidate parses
to no format or to a year of at least `100` (an unparseable date is
kept verbatim both times, and a year of `1000..9999` re-renders to the
same ISO string while a year of `100..999` renders to a three-digit
year that no format matches and is then kept).  Neither the note list
of the second run (kept-but-flagged fields re-emit their warnings) nor
the date of a record whose date parses to a year below `100` (its
unpadded re-rendering is re-read by a two-digit-year format) is
preserved in general. -/
theorem claim_C9_amended (r : PrescriptionResult) :
    (r.data = none →
        validate_and_fix_prescription (validate_and_fix_prescription r) =
          validate_and_fix_prescription r) ∧
    (∀ d, r.data = some d → ∃ d1 d2,
        (validate_and_fix_prescription r).data = some d1 ∧
        (validate_and_fix_prescription (validate_and_fix_prescription r)).data = some d2 ∧
        d2.right_eye = d1.right_eye ∧ d2.left_eye = d1.left_eye ∧
        d2.pupillary_distance = d1.pupillary_distance ∧
        d2.doctor_name = d1.doctor_name ∧
        (dateParse d.date = none → d2.date = d1.date) ∧
        (∀ y mo dy, dateParse d.date = some (y, mo, dy) → 100 ≤ y →
            d2.date = d1.date)) := by
  constructor
  · intro h0
    have hv := vafp_none r h0
    rw [hv, hv]
  · intro d hd
    have h1 := vafp_some r d hd
    refine ⟨{ right_eye := (processEye d.right_eye "right_eye").1,
              left_eye := (processEye d.left_eye "left_eye").1,
              pupillary_distance := (pdStep d.pupillary_distance).1,
              doctor_name := d.doctor_name,
              date := (dateStep d.date).1 },
            { right_eye := (processEye (processEye d.right_eye "right_eye").1 "right_eye").1,
              left_eye := (processEye (processEye d.left_eye "left_eye").1 "left_eye").1,
              pupillary_distance := (pdStep (pdStep d.pupillary_distance).1).1,
              doctor_name := d.doctor_name,
              date := (dateStep (dateStep d.date).1).1 },
            by rw [h1], ?_,
            processEye_idem _ _, processEye_idem _ _, pdStep_idem _, rfl, ?_, ?_⟩
    · rw [vafp_some (validate_and_fix_prescription r)
        { right_eye := (processEye d.right_eye "right_eye").1,
          left_eye := (processEye d.left_eye "left_eye").1,
          pupillary_distance := (pdStep d.pupillary_distance).1,
          doctor_name := d.doctor_name,
          date := (dateStep d.date).1 } (by rw [h1])]
    · intro hn
      refine dateStep_idem_of d.date ?_
      intro y2 m2 dd2 hp2
      rw [hn] at hp2
      exact absurd hp2 (by simp)
    · intro y mo dy hp h100
      refine dateStep_idem_of d.date ?_
      intro y2 m2 dd2 hp2
      rw [hp] at hp2
      have he : y = y2 ∧ mo = m2 ∧ dy = dd2 := by simpa using hp2
      exact he.1 ▸ h100

/-- C10: whenever the validated add value `q` is nonnegative but outside
the typical band `0.75..3.50`, the stored add field is exactly the
original candidate value `v` — original type and magnitude — so neither
the coercion nor the rounding reported in the notes is applied to the
record. -/
theorem claim_C10 (v : PyVal) (eye : String) (q : ℚ) (st : Option String) (ns : List Note)
    (h : validate_sphere_cylinder v (eye ++ " add") = (some q, st, ns))
    (h0 : 0 ≤ q) (hband : q < 3/4 ∨ q > 7/2) :
    (addStep v eye).1 = v := by
  have ha : v ≠ PyVal.vNone := by
    intro hv
    rw [hv, vsc_vNone] at h
    simp at h
  rw [addStep_res_some v eye q st ns ha h, if_neg (not_lt.2 h0), if_pos hband]

/-- C10 (witness): the off-grid string candidate `"3.76"` is rounded to
`3.75` for validation, `3.75` is outside the band, and the record keeps
the original string `"3.76"` — neither coerced nor rounded. -/
theorem claim_C10_witness :
    (addStep (PyVal.vStr "3.76") "right_eye").1 = PyVal.vStr "3.76" := by
  have hp : parseQchars "3.76".data = some (94/25) := by
    rw [parseQchars, (by decide : parseDec "3.76".data = some (false, 3, 76, 2)),
      Option.map_some']
    norm_num [ratOfDec]
  have hvsc : validate_sphere_cylinder (PyVal.vStr "3.76") ("right_eye" ++ " add") =
      (some (15/4), some "rounded",
        [Note.rounded ("right_eye" ++ " add") (94/25) (15/4)]) := by
    rw [vsc_of_pyFloat (PyVal.vStr "3.76") (94/25) _ (by simp [pyFloat, hp]), vscNum_eq]
    norm_num [pymod1, pyAbs, pyRound]
  exact claim_C10 (PyVal.vStr "3.76") "right_eye" (15/4) (some "rounded")
    [Note.rounded ("right_eye" ++ " add") (94/25) (15/4)] hvsc (by norm_num)
    (Or.inr (by norm_num))


theorem parseQ_62 : parseQchars "62".data = some 62 := by
  rw [parseQchars, (by decide : parseDec "62".data = some (false, 62, 0, 0)),
    Option.map_some']
  norm_num [ratOfDec]

theorem parseQ_60 : parseQchars "60".data = some 60 := by
  rw [parseQchars, (by decide : parseDec "60".data = some (false, 60, 0, 0)),
    Option.map_some']
  norm_num [ratOfDec]

theorem parseQ_90 : parseQchars "90".data = some 90 := by
  rw [parseQchars, (by decide : parseDec "90".data = some (false, 90, 0, 0)),
    Option.map_some']
  norm_num [ratOfDec]

theorem parseQ_10 : parseQchars "10".data = some 10 := by
  rw [parseQchars, (by decide : parseDec "10".data = some (false, 10, 0, 0)),
    Option.map_some']
  norm_num [ratOfDec]

theorem pdParts_62_60 : pdParts (PyVal.vStr "62/60") = some [62, 60] := by
  rw [pdParts]
  simp only [show stripChars "62/60".data = "62/60".data from by decide]
  rw [if_pos (by decide : '/' ∈ "62/60".data)]
  rw [show ((splitChar '/' "62/60".data).map stripChars).filter (fun p => !p.isEmpty) =
    ["62".data, "60".data] from by decide]
  rw [parseAllQ, parseQ_62, parseAllQ, parseQ_60, parseAllQ]

theorem pdStep_62_60 : pdStep (PyVal.vStr "62/60") = (PyVal.vStr "62/60", []) := by
  have hscan : pdScan [(62 : ℚ), 60] = ([], [62, 60]) := by
    refine pdScan_all_valid _ ?_
    intro q hq
    simp only [List.mem_cons, List.not_mem_nil, or_false] at hq
    rcases hq with rfl | rfl <;> norm_num
  have h := pdStep_res_many (PyVal.vStr "62/60") [62, 60] 62 60 [] (by simp)
    pdParts_62_60 (by rw [hscan])
  rw [h, hscan]
  have ht62 : pyTrunc (62 : ℚ) = 62 := by
    rw [show ((62 : ℚ)) = ((62 : ℤ) : ℚ) from by norm_num, pyTrunc_intCast]
  have ht60 : pyTrunc (60 : ℚ) = 60 := by
    rw [show ((60 : ℚ)) = ((60 : ℤ) : ℚ) from by norm_num, pyTrunc_intCast]
  simp only [List.map_cons, List.map_nil, ht62, ht60]
  rfl


theorem pdParts_90_60 : pdParts (PyVal.vStr "90/60") = some [90, 60] := by
  rw [pdParts]
  simp only [show stripChars "90/60".data = "90/60".data from by decide]
  rw [if_pos (by decide : '/' ∈ "90/60".data)]
  rw [show ((splitChar '/' "90/60".data).map stripChars).filter (fun p => !p.isEmpty) =
    ["90".data, "60".data] from by decide]
  rw [parseAllQ, parseQ_90, parseAllQ, parseQ_60, parseAllQ]

theorem pdStep_90_60 :
    pdStep (PyVal.vStr "90/60") = (PyVal.vInt 60, [Note.pdOutsideRange 90]) := by
  have hscan : pdScan [(90 : ℚ), 60] = ([Note.pdOutsideRange 90], [60]) := by
    norm_num [pdScan]
  have h := pdStep_res_one (PyVal.vStr "90/60") [90, 60] 60 (by simp)
    pdParts_90_60 (by rw [hscan])
  rw [h, hscan]
  rw [show pyTrunc (60 : ℚ) = 60 from by
    rw [show ((60 : ℚ)) = ((60 : ℤ) : ℚ) from by norm_num, pyTrunc_intCast]]

theorem pdParts_10 : pdParts (PyVal.vStr "10") = some [10] := by
  rw [pdParts]
  simp only [show stripChars "10".data = "10".data from by decide]
  rw [if_neg (by decide : ¬ '/' ∈ "10".data), parseQ_10]
  rfl

theorem pdStep_10 : pdStep (PyVal.vStr "10") = (PyVal.vNone, [Note.pdOutsideRange 10]) := by
  have hscan : pdScan [(10 : ℚ)] = ([Note.pdOutsideRange 10], []) := by
    norm_num [pdScan]
  have h := pdStep_res_nil (PyVal.vStr "10") [10] (by simp) pdParts_10 (by rw [hscan])
  rw [h, hscan]

theorem pdParts_62_slash : pdParts (PyVal.vStr "62/") = some [62] := by
  rw [pdParts]
  simp only [show stripChars "62/".data = "62/".data from by decide]
  rw [if_pos (by decide : '/' ∈ "62/".data)]
  rw [show ((splitChar '/' "62/".data).map stripChars).filter (fun p => !p.isEmpty) =
    ["62".data] from by decide]
  rw [parseAllQ, parseQ_62, parseAllQ]

/-- C5 (counterexample): for the candidate `"62/"` the split yields the
empty part `""`, which is non-numeric (`float("")` fails), so the claim
demands a null result with an invalid-format note; the code silently
discards empty parts before coercion and returns the integer `62` with
no note at all. -/
theorem claim_C5_counterexample :
    pdStep (PyVal.vStr "62/") = (PyVal.vInt 62, []) ∧
    splitChar '/' (stripChars "62/".data) = ["62".data, []] ∧
    parseQchars [] = none := by
  refine ⟨?_, by decide, by decide⟩
  have hscan : pdScan [(62 : ℚ)] = ([], [62]) := by
    norm_num [pdScan]
  have h := pdStep_res_one (PyVal.vStr "62/") [62] 62 (by simp)
    pdParts_62_slash (by rw [hscan])
  rw [h, hscan]
  rw [show pyTrunc (62 : ℚ) = 62 from by
    rw [show ((62 : ℚ)) = ((62 : ℤ) : ℚ) from by norm_num, pyTrunc_intCast]]

/-- C5 (amended): the PD candidate is stripped and split on `/`; parts
that are empty after stripping are discarded before coercion; each
remaining part is coerced with `float`, and any remaining non-numeric
part nulls the whole result with one invalid-format note; each numeric
part outside `[50, 75]` is dropped with a note; zero survivors give
null, one survivor gives its truncated integer, two or more give the
`/`-joined string of truncated integers in original order.  In
particular `"62/60"` maps to the string `"62/60"`, `"90/60"` to the int
`60` with one note, and `"10"` to null with one note. -/
theorem claim_C5_amended :
    pdStep (PyVal.vStr "62/60") = (PyVal.vStr "62/60", []) ∧
    pdStep (PyVal.vStr "90/60") = (PyVal.vInt 60, [Note.pdOutsideRange 90]) ∧
    pdStep (PyVal.vStr "10") = (PyVal.vNone, [Note.pdOutsideRange 10]) ∧
    (∀ v : PyVal, v ≠ PyVal.vNone → pdParts v = none →
        pdStep v = (PyVal.vNone, [Note.pdInvalidFormat v])) ∧
    (∀ (v : PyVal) (qs : List ℚ), v ≠ PyVal.vNone → pdParts v = some qs →
        ((pdScan qs).2 = [] → pdStep v = (PyVal.vNone, (pdScan qs).1)) ∧
        (∀ q, (pdScan qs).2 = [q] →
            pdStep v = (PyVal.vInt (pyTrunc q), (pdScan qs).1)) ∧
        (∀ q1 q2 rest, (pdScan qs).2 = q1 :: q2 :: rest →
            pdStep v = (PyVal.vStr (String.mk (joinChar '/'
              ((q1 :: q2 :: rest).map (fun q => intStr (pyTrunc q))))), (pdScan qs).1))) := by
  refine ⟨pdStep_62_60, pdStep_90_60, pdStep_10, ?_, ?_⟩
  · intro v hv h
    exact pdStep_parts_none v hv h
  · intro v qs hv h
    exact ⟨fun h2 => pdStep_res_nil v qs hv h h2,
      fun q h2 => pdStep_res_one v qs q hv h h2,
      fun q1 q2 rest h2 => pdStep_res_many v qs q1 q2 rest hv h h2⟩

/-- C5 (witness): the non-numeric candidate `"abc"` gives null with one
invalid-format note. -/
theorem claim_C5_witness :
    pdStep (PyVal.vStr "abc") = (PyVal.vNone, [Note.pdInvalidFormat (PyVal.vStr "abc")]) := by
  refine claim_C5_amended.2.2.2.1 (PyVal.vStr "abc") (by simp) ?_
  rw [pdParts]
  simp only [show stripChars "abc".data = "abc".data from by decide]
  rw [if_neg (by decide : ¬ '/' ∈ "abc".data)]
  rw [show parseQchars "abc".data = none from by
    rw [parseQchars, (by decide : parseDec "abc".data = none)]; rfl]
  rfl


/-- C6: the date candidate is tried against the fixed ordered format
list — month/day/year before day/month/year for the same separator —
and the first format parsing the whole string wins, re-rendered as
`YYYY-MM-DD`; an unparseable candidate is left in the record untouched
(not nulled) with one note.  In particular `"01/15/2024"` maps to
`"2024-01-15"`, `"15/01/2024"` also maps to `"2024-01-15"` (the
month-15 reading fails first), the two-digit year `"1/15/24"` maps to
`"2024-01-15"` via `%m/%d/%y`, the three-digit year `"01/15/999"`
matches no format (`%Y` takes exactly four digits, `%y` exactly two)
and stays with one note, `"not-a-date"` stays `"not-a-date"` with one
note, and a record containing only that date gets
`validation_status = "warnings"`. -/
theorem claim_C6 :
    dateStep (PyVal.vStr "01/15/2024") = (PyVal.vStr "2024-01-15", []) ∧
    dateStep (PyVal.vStr "15/01/2024") = (PyVal.vStr "2024-01-15", []) ∧
    dateStep (PyVal.vStr "1/15/24") = (PyVal.vStr "2024-01-15", []) ∧
    dateStep (PyVal.vStr "01/15/999") =
      (PyVal.vStr "01/15/999", [Note.dateUnparsed (PyVal.vStr "01/15/999")]) ∧
    dateStep (PyVal.vStr "not-a-date") =
      (PyVal.vStr "not-a-date", [Note.dateUnparsed (PyVal.vStr "not-a-date")]) ∧
    (∀ v : PyVal, v ≠ PyVal.vNone → dateParse v = none →
        dateStep v = (v, [Note.dateUnparsed v])) ∧
    (validate_and_fix_prescription
        ⟨PyVal.vStr "ok", PyVal.vNone,
          some ⟨none, none, PyVal.vNone, PyVal.vNone, PyVal.vStr "not-a-date"⟩,
          none, none, []⟩).validation_status = some "warnings" := by
  refine ⟨by decide, by decide, by decide, by decide, by decide, ?_, ?_⟩
  · intro v hv h
    exact dateStep_parse_none v hv h
  · rw [vafp_some _ _ rfl]
    decide

/-- C6 (witness): an integer date candidate matches no format and is
left untouched with one note. -/
theorem claim_C6_witness :
    dateStep (PyVal.vInt 20240115) =
      (PyVal.vInt 20240115, [Note.dateUnparsed (PyVal.vInt 20240115)]) :=
  claim_C6.2.2.2.2.2.1 (PyVal.vInt 20240115) (by simp) rfl


/-- C8 (counterexample): `validate_and_fix_prescription` mutates the
record passed to it in place and returns that same object, so after the
call the caller's record differs from what was passed: for a record with
sphere candidate `2.26` the final state differs from the initial state
(the sphere is rewritten and validation notes are written into the
diagnostics), contradicting the claim that the input is read-only. -/
theorem claim_C8_counterexample :
    validate_and_fix_prescription
      ⟨PyVal.vStr "ok", PyVal.vNone,
        some ⟨some ⟨PyVal.vFloat (113/50), PyVal.vNone, PyVal.vNone, PyVal.vNone⟩,
          none, PyVal.vNone, PyVal.vNone, PyVal.vNone⟩, none, none, []⟩ ≠
      ⟨PyVal.vStr "ok", PyVal.vNone,
        some ⟨some ⟨PyVal.vFloat (113/50), PyVal.vNone, PyVal.vNone, PyVal.vNone⟩,
          none, PyVal.vNone, PyVal.vNone, PyVal.vNone⟩, none, none, []⟩ := by
  intro h
  have h2 := congrArg PrescriptionResult.validation_notes h
  rw [vafp_some _ _ rfl] at h2
  simp at h2

/-- C8 (amended): the engine is a deterministic function of its input
but updates the record in place rather than leaving it untouched; its
effects are confined to the data fields it validates and the two
diagnostics keys it writes: the top-level status and message, the
pre-existing diagnostics entries other than `validation_notes` and
`validation_status`, and the doctor-name field are all preserved, and a
record with absent data passes through entirely unchanged. -/
theorem claim_C8_amended (r : PrescriptionResult) :
    ((validate_and_fix_prescription r).status = r.status) ∧
    ((validate_and_fix_prescription r).message = r.message) ∧
    ((validate_and_fix_prescription r).diagnostics_rest = r.diagnostics_rest) ∧
    (r.data = none → validate_and_fix_prescription r = r) ∧
    (∀ d, r.data = some d → ∃ d', (validate_and_fix_prescription r).data = some d' ∧
        d'.doctor_name = d.doctor_name) := by
  cases hd : r.data with
  | none =>
      have h0 := vafp_none r hd
      rw [h0]
      refine ⟨rfl, rfl, rfl, fun _ => rfl, ?_⟩
      intro d hdd
      exact absurd hdd (by simp)
  | some d =>
      rw [vafp_some r d hd]
      refine ⟨rfl, rfl, rfl, ?_, ?_⟩
      · intro h0
        exact absurd h0 (by simp)
      · intro d2 hd2
        obtain rfl : d = d2 := by simpa using hd2
        exact ⟨_, rfl, rfl⟩

/-- C8 (witness): a record with absent data and a pre-existing
diagnostics entry passes through entirely unchanged. -/
theorem claim_C8_witness :
    validate_and_fix_prescription
      ⟨PyVal.vInt 1, PyVal.vStr "m", none, none, none,
        [("confidence", PyVal.vStr "low")]⟩ =
      ⟨PyVal.vInt 1, PyVal.vStr "m", none, none, none,
        [("confidence", PyVal.vStr "low")]⟩ :=
  (claim_C8_amended _).2.2.2.1 rfl


/-- The record used to refute C9's note-list clause: sphere candidate
`2.26` (correctable) and add candidate `4.0` (kept but flagged). -/
def c9rec : PrescriptionResult :=
  ⟨PyVal.vStr "ok", PyVal.vNone,
    some ⟨some ⟨PyVal.vFloat (113/50), PyVal.vNone, PyVal.vNone, PyVal.vFloat 4⟩,
      none, PyVal.vNone, PyVal.vNone, PyVal.vNone⟩, none, none, []⟩

theorem c9_addStep : addStep (PyVal.vFloat 4) "right_eye" =
    (PyVal.vFloat 4, [Note.addOutsideTypical "right_eye" 4]) := by
  have hv4 : validate_sphere_cylinder (PyVal.vFloat 4) ("right_eye" ++ " add") =
      (some 4, some "valid", []) :=
    vsc_float_valid 4 _ (by norm_num) (by norm_num) (by norm_num [pymod1, pyAbs])
  rw [addStep_res_some (PyVal.vFloat 4) "right_eye" 4 (some "valid") [] (by simp) hv4,
    if_neg (by norm_num), if_pos (Or.inr (by norm_num))]
  rfl

theorem c9_processEye_first :
    processEye (some ⟨PyVal.vFloat (113/50), PyVal.vNone, PyVal.vNone, PyVal.vFloat 4⟩)
      "right_eye" =
      (some ⟨PyVal.vFloat (9/4), PyVal.vNone, PyVal.vNone, PyVal.vFloat 4⟩,
        [Note.rounded "right_eye sphere" (113/50) (9/4),
          Note.addOutsideTypical "right_eye" 4]) := by
  have hsph : validate_sphere_cylinder (PyVal.vFloat (113/50)) ("right_eye" ++ " sphere") =
      (some (9/4), some "rounded",
        [Note.rounded ("right_eye" ++ " sphere") (113/50) (9/4)]) := by
    rw [vsc_of_pyFloat (PyVal.vFloat (113/50)) (113/50) _ rfl, vscNum_eq]
    norm_num [pymod1, pyAbs, pyRound]
  have hsto : applyStore (PyVal.vFloat (113/50))
      (some (9/4), some "rounded",
        [Note.rounded ("right_eye" ++ " sphere") (113/50) (9/4)]) =
      PyVal.vFloat (9/4) := applyStore_store _ _ _ _ (by decide)
  simp only [processEye]
  rw [hsph, hsto, c9_addStep]
  rfl

theorem c9_processEye_second :
    processEye (some ⟨PyVal.vFloat (9/4), PyVal.vNone, PyVal.vNone, PyVal.vFloat 4⟩)
      "right_eye" =
      (some ⟨PyVal.vFloat (9/4), PyVal.vNone, PyVal.vNone, PyVal.vFloat 4⟩,
        [Note.addOutsideTypical "right_eye" 4]) := by
  have hsph : validate_sphere_cylinder (PyVal.vFloat (9/4)) ("right_eye" ++ " sphere") =
      (some (9/4), some "valid", []) :=
    vsc_float_valid (9/4) _ (by norm_num) (by norm_num) (by norm_num [pymod1, pyAbs])
  have hsto : applyStore (PyVal.vFloat (9/4)) (some (9/4), some "valid", []) =
      PyVal.vFloat (9/4) := applyStore_valid _ _
  simp only [processEye]
  rw [hsph, hsto, c9_addStep]
  rfl

theorem c9_first_data : (validate_and_fix_prescription c9rec).data =
    some ⟨some ⟨PyVal.vFloat (9/4), PyVal.vNone, PyVal.vNone, PyVal.vFloat 4⟩,
      none, PyVal.vNone, PyVal.vNone, PyVal.vNone⟩ := by
  rw [vafp_some c9rec _ rfl]
  show some _ = some _
  rw [show (processEye (some ⟨PyVal.vFloat (113/50), PyVal.vNone, PyVal.vNone,
      PyVal.vFloat 4⟩) "right_eye").1 =
      some ⟨PyVal.vFloat (9/4), PyVal.vNone, PyVal.vNone, PyVal.vFloat 4⟩ from by
    rw [c9_processEye_first]]
  rfl

/-- C9 (witness): on a record with a sphere to correct, an add to flag
and an absent date, the re-run reproduces the first run's data exactly. -/
theorem claim_C9_witness :
    (validate_and_fix_prescription (validate_and_fix_prescription c9rec)).data =
      (validate_and_fix_prescription c9rec).data := by
  obtain ⟨d1, d2, h1, h2, e1, e2, e3, e4, e5, -⟩ := (claim_C9_amended c9rec).2 _ rfl
  have e5' := e5 rfl
  rw [h1, h2, Option.some.injEq]
  cases d1
  cases d2
  simp only [RecordData.mk.injEq]
  exact ⟨e1, e2, e3, e4, e5'⟩

/-- The record used to refute C9's same-record clause on the date field:
its only populated field is the date candidate `"01/15/0012"`, a padded
four-digit year below `100`. -/
def c9recDate : PrescriptionResult :=
  ⟨PyVal.vStr "ok", PyVal.vNone,
    some ⟨none, none, PyVal.vNone, PyVal.vNone, PyVal.vStr "01/15/0012"⟩,
    none, none, []⟩

theorem c9date_first_data : (validate_and_fix_prescription c9recDate).data =
    some ⟨none, none, PyVal.vNone, PyVal.vNone, PyVal.vStr "12-01-15"⟩ := by
  rw [vafp_some c9recDate _ rfl]
  decide

theorem c9date_second_data :
    (validate_and_fix_prescription (validate_and_fix_prescription c9recDate)).data =
      some ⟨none, none, PyVal.vNone, PyVal.vNone, PyVal.vStr "2015-12-01"⟩ := by
  rw [vafp_some _ _ c9date_first_data]
  decide

/-- C9 (counterexample): on a record whose right eye has sphere `2.26`
and add `4.0`, the first run emits two notes — a sphere "rounded"
correction and an add outside-typical warning — while the second run
(on the record the first produced) emits only the persistent add
warning: the second note list is neither identical to the first nor
empty, refuting the claim's note clause.  The data clause also fails:
on a record whose date is `"01/15/0012"` (year `12` via `%m/%d/%Y`),
the first run stores the unpadded rendering `"12-01-15"`, which the
second run re-reads through `%m-%d-%y` as December 1, 2015 and rewrites
to `"2015-12-01"` — the second run does not return the same record. -/
theorem claim_C9_counterexample :
    (validate_and_fix_prescription c9rec).validation_notes =
      some [Note.rounded "right_eye sphere" (113/50) (9/4),
        Note.addOutsideTypical "right_eye" 4] ∧
    (validate_and_fix_prescription (validate_and_fix_prescription c9rec)).validation_notes =
      some [Note.addOutsideTypical "right_eye" 4] ∧
    ¬(some [Note.addOutsideTypical "right_eye" 4] =
        some [Note.rounded "right_eye sphere" (113/50) (9/4),
          Note.addOutsideTypical "right_eye" 4]) ∧
    ¬(some [Note.addOutsideTypical "right_eye" 4] = some ([] : List Note)) ∧
    (validate_and_fix_prescription c9recDate).data =
      some ⟨none, none, PyVal.vNone, PyVal.vNone, PyVal.vStr "12-01-15"⟩ ∧
    (validate_and_fix_prescription (validate_and_fix_prescription c9recDate)).data =
      some ⟨none, none, PyVal.vNone, PyVal.vNone, PyVal.vStr "2015-12-01"⟩ ∧
    (PyVal.vStr "2015-12-01" : PyVal) ≠ PyVal.vStr "12-01-15" := by
  refine ⟨?_, ?_, by simp, by simp, c9date_first_data, c9date_second_data, by decide⟩
  · rw [vafp_some c9rec _ rfl]
    show some _ = some _
    rw [show (processEye (some ⟨PyVal.vFloat (113/50), PyVal.vNone, PyVal.vNone,
        PyVal.vFloat 4⟩) "right_eye").2 =
        [Note.rounded "right_eye sphere" (113/50) (9/4),
          Note.addOutsideTypical "right_eye" 4] from by
      rw [c9_processEye_first]]
    rfl
  · rw [vafp_some (validate_and_fix_prescription c9rec) _ c9_first_data]
    show some _ = some _
    rw [show (processEye (some ⟨PyVal.vFloat (9/4), PyVal.vNone, PyVal.vNone,
        PyVal.vFloat 4⟩) "right_eye").2 =
        [Note.addOutsideTypical "right_eye" 4] from by
      rw [c9_processEye_second]]
    rfl

end Prescription
